import Mathlib

/-!
Verification development for the qr-gen QR/Micro-QR encoder.

The Rust sources are shallowly embedded:
* bit streams are lists of booleans, written big-endian (most significant
  bit first), matching the BigEndian BitRecorder of bitstream-io;
* a write of a value that does not fit the requested bit width is an error
  in bitstream-io (the code unwraps it), modelled by Option.none;
* Rust panics (asserts, invalid match arms, out-of-range indexing) are
  modelled by Option.none;
* u8/u16/u32 arithmetic is modelled on Nat; wrapping subtraction is made
  explicit where it can occur (release-build semantics).
-/

namespace QrGen

/-! ## config.rs -/

inductive Encoding where
  | Numeric
  | Alphanumeric
  | Bytes
  | Kanji
deriving DecidableEq, Repr

inductive Size where
  | Micro : Nat → Size
  | Standard : Nat → Size
deriving DecidableEq, Repr

inductive ECCLevel where
  | L
  | M
  | Q
  | H
deriving DecidableEq, Repr

/-- Number of character-count indicator bits (Encoding::num_char_count_bits).
The Rust match arms Standard(1..=9), Standard(10..=26), Standard(_) are
modelled by the ordered conditionals below. -/
def num_char_count_bits (e : Encoding) (size : Size) : Nat :=
  match size with
  | .Micro i =>
      match e with
      | .Numeric => 2 + i
      | .Alphanumeric | .Bytes => 1 + i
      | .Kanji => i
  | .Standard v =>
      if 1 ≤ v ∧ v ≤ 9 then
        match e with
        | .Numeric => 10
        | .Alphanumeric => 9
        | .Bytes | .Kanji => 8
      else if 10 ≤ v ∧ v ≤ 26 then
        match e with
        | .Numeric => 12
        | .Alphanumeric => 11
        | .Bytes => 16
        | .Kanji => 10
      else
        match e with
        | .Numeric => 14
        | .Alphanumeric => 13
        | .Bytes => 16
        | .Kanji => 12

/-- Size::terminator_length. -/
def terminator_length (s : Size) : Nat :=
  match s with
  | .Micro i => 1 + 2 * i
  | .Standard _ => 4

/-- Size::dimensions (module side length without the quiet zone). -/
def dimensions (s : Size) : Nat :=
  match s with
  | .Micro i => i * 2 + 9
  | .Standard i => i * 4 + 17

/-- Size::quiet_region_size. -/
def quiet_region_size (s : Size) : Nat :=
  match s with
  | .Micro _ => 2
  | .Standard _ => 4

/-- The test `size == Size::Micro(1) || size == Size::Micro(3)` used by
finalize_bitstream and insert_data_payload. -/
def isM13 (s : Size) : Bool :=
  s = Size.Micro 1 ∨ s = Size.Micro 3

/-! ## Bit streams

A recorded bit stream is a List Bool; `natToBits n v` is the big-endian
encoding of `v` in `n` bits, and `writeBits` checks (as bitstream-io does)
that the value fits in the requested width. -/

def natToBits (n v : Nat) : List Bool :=
  (List.range n).map fun i => v.testBit (n - 1 - i)

def writeBits (n v : Nat) : Option (List Bool) :=
  if v < 2 ^ n then some (natToBits n v) else none

/-! ## bitcoding.rs: segment encoders

Each encoder returns the list of bits it appends to the recorder
(all recorder writes are appends, so this is equivalent to passing the
recorder through). -/

/-- write_mode_indicator.  Note the Micro(1) arm writes nothing and
performs no validation of the encoding mode; Micro(2) rejects Bytes and
Kanji; sizes Micro(0) and Micro(5..) hit the wildcard arm. -/
def write_mode_indicator (size : Size) (ec : Encoding) : Option (List Bool) :=
  match size with
  | .Micro 1 => some []
  | .Micro 2 =>
      match ec with
      | .Numeric => writeBits 1 0
      | .Alphanumeric => writeBits 1 1
      | _ => none
  | .Micro 3 =>
      writeBits 2 (match ec with
        | .Numeric => 0b00
        | .Alphanumeric => 0b01
        | .Bytes => 0b10
        | .Kanji => 0b11)
  | .Micro 4 =>
      writeBits 3 (match ec with
        | .Numeric => 0b000
        | .Alphanumeric => 0b001
        | .Bytes => 0b010
        | .Kanji => 0b011)
  | .Standard _ =>
      writeBits 4 (match ec with
        | .Numeric => 0b0001
        | .Alphanumeric => 0b0010
        | .Bytes => 0b0100
        | .Kanji => 0b1000)
  | .Micro _ => none

/-- write_charcount_indicator. -/
def write_charcount_indicator (count : Nat) (size : Size) (ec : Encoding) :
    Option (List Bool) :=
  writeBits (num_char_count_bits ec size) count

/-- Loop body of encode_numeric_data.  `i` is the 0-index of the current
digit in its triplet and `cur` the current triplet value.  The in-source
assertion `l >= 0x30 || l <= 0x39` is transcribed literally (it is a
tautology, so it never fails).  The u8 subtraction `l - 0x30` is modelled
with wrap-around (release semantics); for bytes at or above 0x30 it is the
plain difference. -/
def encode_numeric_loop : List Nat → Nat → Nat → Option (List Bool)
  | [], i, cur =>
      if i = 1 then writeBits 4 cur
      else if i = 2 then writeBits 7 cur
      else some []
  | l :: rest, i, cur =>
      if 0x30 ≤ l ∨ l ≤ 0x39 then
        let digit := (l + 256 - 0x30) % 256
        let cur2 := cur * 10 + digit
        if i + 1 = 3 then do
          let w ← writeBits 10 cur2
          let tail ← encode_numeric_loop rest 0 0
          some (w ++ tail)
        else
          encode_numeric_loop rest (i + 1) cur2
      else none

def encode_numeric_data (input : List Nat) : Option (List Bool) :=
  encode_numeric_loop input 0 0

/-- map_alphanumeric; the wildcard arm aborts (IllegalCharacter). -/
def map_alphanumeric (c : Nat) : Option Nat :=
  if 0x30 ≤ c ∧ c ≤ 0x39 then some (c - 0x30)
  else if 0x41 ≤ c ∧ c ≤ 0x5A then some (c - 0x37)
  else if c = 0x20 then some 36
  else if c = 0x24 then some 37
  else if c = 0x25 then some 38
  else if c = 0x2A then some 39
  else if c = 0x2B then some 40
  else if c = 0x2D then some 41
  else if c = 0x2E then some 42
  else if c = 0x2F then some 43
  else if c = 0x3A then some 44
  else none

/-- Loop of encode_alphanumeric_data. -/
def encode_alphanumeric_loop : List Nat → Nat → Nat → Option (List Bool)
  | [], i, cur =>
      if i = 1 then writeBits 6 cur else some []
  | l :: rest, i, cur => do
      let m ← map_alphanumeric l
      let cur2 := cur * 45 + m
      if i + 1 = 2 then do
        let w ← writeBits 11 cur2
        let tail ← encode_alphanumeric_loop rest 0 0
        some (w ++ tail)
      else
        encode_alphanumeric_loop rest (i + 1) cur2

def encode_alphanumeric_data (input : List Nat) : Option (List Bool) :=
  encode_alphanumeric_loop input 0 0

/-- encode_byte_data: each byte written as 8 bits. -/
def encode_byte_data : List Nat → Option (List Bool)
  | [] => some []
  | l :: rest => do
      let w ← writeBits 8 l
      let tail ← encode_byte_data rest
      some (w ++ tail)

/-- One 2-byte chunk of encode_kanji_data, as a 16-bit number. -/
def kanji_number (b1 b2 : Nat) : Nat := b1 * 0x100 + b2

/-- Chunked loop of encode_kanji_data.  A pair outside both Shift-JIS
ranges falls through both conditionals and emits nothing. -/
def encode_kanji_loop : List Nat → Option (List Bool)
  | b1 :: b2 :: rest =>
      let number := kanji_number b1 b2
      if 0x8140 ≤ number ∧ number ≤ 0x9FFC then
        let m := number - 0x8140
        do
          let w ← writeBits 13 (m / 0x100 * 0xC0 + m % 0x100)
          let tail ← encode_kanji_loop rest
          some (w ++ tail)
      else if 0xE040 ≤ number ∧ number ≤ 0xEBBF then
        let m := number - 0xC140
        do
          let w ← writeBits 13 (m / 0x100 * 0xC0 + m % 0x100)
          let tail ← encode_kanji_loop rest
          some (w ++ tail)
      else
        encode_kanji_loop rest
  | _ => some []

/-- encode_kanji_data, including the even-length assertion. -/
def encode_kanji_data (input : List Nat) : Option (List Bool) :=
  if input.length % 2 = 0 then encode_kanji_loop input else none

/-- encode_data_segment: mode indicator, then character count
(characters = bytes, except halved for Kanji), then packed data. -/
def encode_data_segment (input : List Nat) (ec : Encoding) (size : Size) :
    Option (List Bool) := do
  let mi ← write_mode_indicator size ec
  match ec with
  | .Numeric => do
      let cc ← write_charcount_indicator input.length size .Numeric
      let d ← encode_numeric_data input
      some (mi ++ cc ++ d)
  | .Alphanumeric => do
      let cc ← write_charcount_indicator input.length size .Alphanumeric
      let d ← encode_alphanumeric_data input
      some (mi ++ cc ++ d)
  | .Bytes => do
      let cc ← write_charcount_indicator input.length size .Bytes
      let d ← encode_byte_data input
      some (mi ++ cc ++ d)
  | .Kanji => do
      let cc ← write_charcount_indicator (input.length / 2) size .Kanji
      let d ← encode_kanji_data input
      some (mi ++ cc ++ d)

/-- The 2-byte chunks of a byte list (chunks(2), complete pairs). -/
def kanji_pairs : List Nat → List (Nat × Nat)
  | b1 :: b2 :: rest => (b1, b2) :: kanji_pairs rest
  | _ => []

/-- A pair lies in one of the two encodable Shift-JIS ranges. -/
def kanji_pair_in_range (p : Nat × Nat) : Prop :=
  (0x8140 ≤ kanji_number p.1 p.2 ∧ kanji_number p.1 p.2 ≤ 0x9FFC) ∨
  (0xE040 ≤ kanji_number p.1 p.2 ∧ kanji_number p.1 p.2 ≤ 0xEBBF)

instance (p : Nat × Nat) : Decidable (kanji_pair_in_range p) := by
  unfold kanji_pair_in_range; infer_instance

/-! ## tables.rs: capacity table -/

structure BlockDef where
  num_blocks : Nat
  codewords : Nat
  data_codewords : Nat
deriving DecidableEq, Repr

structure SymbolCapacity where
  data_bits : Nat
  chars_numeric : Nat
  chars_alphanum : Nat
  chars_bytes : Nat
  chars_kanji : Nat
  block_def1 : BlockDef
  block_def2 : BlockDef
deriving DecidableEq, Repr

/-- SymbolCapacity::new, with arguments in the order of the Rust
define_capacity_table macro rows. -/
def capacity (bits charsnum charsalphanum charsbytes charskanji
    num_blocks1 block_size1 block_data_words1
    num_blocks2 block_size2 block_data_words2 : Nat) : SymbolCapacity :=
  { data_bits := bits
    chars_numeric := charsnum
    chars_alphanum := charsalphanum
    chars_bytes := charsbytes
    chars_kanji := charskanji
    block_def1 := ⟨num_blocks1, block_size1, block_data_words1⟩
    block_def2 := ⟨num_blocks2, block_size2, block_data_words2⟩ }

/-- SymbolCapacity::codewords. -/
def SymbolCapacity.codewords (c : SymbolCapacity) : Nat :=
  c.block_def1.num_blocks * c.block_def1.codewords +
  c.block_def2.num_blocks * c.block_def2.codewords

/-- SymbolCapacity::data_codewords. -/
def SymbolCapacity.data_codewords (c : SymbolCapacity) : Nat :=
  c.block_def1.num_blocks * c.block_def1.data_codewords +
  c.block_def2.num_blocks * c.block_def2.data_codewords

/-- SymbolCapacity.ecc_words. -/
def SymbolCapacity.ecc_words (c : SymbolCapacity) : Nat :=
  c.codewords - c.data_codewords

/-- SYMBOL_CAPACITY_TABLE, transcribed row for row from the
define_capacity_table! invocation (tables 7 and 9 of ISO/IEC 18004:2015). -/
def SYMBOL_CAPACITY_TABLE : List ((Size × ECCLevel) × SymbolCapacity) := [
  ((Size.Micro 1, ECCLevel.L), capacity 20 5 0 0 0 1 5 3 0 0 0),
  ((Size.Micro 2, ECCLevel.L), capacity 40 10 6 0 0 1 10 5 0 0 0),
  ((Size.Micro 2, ECCLevel.M), capacity 32 8 5 0 0 1 10 4 0 0 0),
  ((Size.Micro 3, ECCLevel.L), capacity 84 23 14 9 6 1 17 11 0 0 0),
  ((Size.Micro 3, ECCLevel.M), capacity 68 18 11 7 4 1 17 9 0 0 0),
  ((Size.Micro 4, ECCLevel.L), capacity 128 35 21 15 9 1 24 16 0 0 0),
  ((Size.Micro 4, ECCLevel.M), capacity 112 30 18 13 8 1 24 14 0 0 0),
  ((Size.Micro 4, ECCLevel.Q), capacity 80 21 13 9 4 1 24 10 0 0 0),
  ((Size.Standard 1, ECCLevel.L), capacity 152 41 25 17 10 1 26 19 0 0 0),
  ((Size.Standard 1, ECCLevel.M), capacity 128 34 20 14 8 1 26 16 0 0 0),
  ((Size.Standard 1, ECCLevel.Q), capacity 104 27 16 11 7 1 26 13 0 0 0),
  ((Size.Standard 1, ECCLevel.H), capacity 72 17 10 7 4 1 26 9 0 0 0),
  ((Size.Standard 2, ECCLevel.L), capacity 272 77 47 32 20 1 44 34 0 0 0),
  ((Size.Standard 2, ECCLevel.M), capacity 224 63 38 26 16 1 44 28 0 0 0),
  ((Size.Standard 2, ECCLevel.Q), capacity 176 48 29 20 12 1 44 22 0 0 0),
  ((Size.Standard 2, ECCLevel.H), capacity 128 34 20 14 8 1 44 16 0 0 0),
  ((Size.Standard 3, ECCLevel.L), capacity 440 127 77 53 32 1 70 55 0 0 0),
  ((Size.Standard 3, ECCLevel.M), capacity 352 101 61 42 26 1 70 44 0 0 0),
  ((Size.Standard 3, ECCLevel.Q), capacity 272 77 47 32 20 2 35 17 0 0 0),
  ((Size.Standard 3, ECCLevel.H), capacity 208 58 35 24 15 2 35 13 0 0 0),
  ((Size.Standard 4, ECCLevel.L), capacity 640 187 114 78 48 1 100 80 0 0 0),
  ((Size.Standard 4, ECCLevel.M), capacity 512 149 90 62 38 2 50 32 0 0 0),
  ((Size.Standard 4, ECCLevel.Q), capacity 384 111 67 46 28 2 50 24 0 0 0),
  ((Size.Standard 4, ECCLevel.H), capacity 288 82 50 34 21 4 25 9 0 0 0),
  ((Size.Standard 5, ECCLevel.L), capacity 864 255 154 106 65 1 134 108 0 0 0),
  ((Size.Standard 5, ECCLevel.M), capacity 688 202 122 84 52 2 67 43 0 0 0),
  ((Size.Standard 5, ECCLevel.Q), capacity 496 144 87 60 37 2 33 15 2 34 16),
  ((Size.Standard 5, ECCLevel.H), capacity 368 106 64 44 27 2 33 11 2 34 12),
  ((Size.Standard 6, ECCLevel.L), capacity 1088 322 195 134 82 2 86 68 0 0 0),
  ((Size.Standard 6, ECCLevel.M), capacity 864 255 154 106 65 4 43 27 0 0 0),
  ((Size.Standard 6, ECCLevel.Q), capacity 608 178 108 74 45 4 43 19 0 0 0),
  ((Size.Standard 6, ECCLevel.H), capacity 480 139 84 58 36 4 43 15 0 0 0),
  ((Size.Standard 7, ECCLevel.L), capacity 1248 370 224 154 95 2 98 78 0 0 0),
  ((Size.Standard 7, ECCLevel.M), capacity 992 293 178 122 75 4 49 31 0 0 0),
  ((Size.Standard 7, ECCLevel.Q), capacity 704 207 125 86 53 2 32 14 4 33 15),
  ((Size.Standard 7, ECCLevel.H), capacity 528 154 93 64 39 4 39 13 1 40 14),
  ((Size.Standard 8, ECCLevel.L), capacity 1552 461 279 192 118 2 121 97 0 0 0),
  ((Size.Standard 8, ECCLevel.M), capacity 1232 365 221 152 93 2 60 38 2 61 39),
  ((Size.Standard 8, ECCLevel.Q), capacity 880 259 157 108 66 4 40 18 2 41 19),
  ((Size.Standard 8, ECCLevel.H), capacity 688 202 122 84 52 4 40 14 2 41 15),
  ((Size.Standard 9, ECCLevel.L), capacity 1856 552 335 230 141 2 146 116 0 0 0),
  ((Size.Standard 9, ECCLevel.M), capacity 1456 432 262 180 111 3 58 36 2 59 37),
  ((Size.Standard 9, ECCLevel.Q), capacity 1056 312 189 130 80 4 36 16 4 37 17),
  ((Size.Standard 9, ECCLevel.H), capacity 800 235 143 98 60 4 36 12 4 37 13),
  ((Size.Standard 10, ECCLevel.L), capacity 2192 652 395 271 167 2 86 68 2 87 69),
  ((Size.Standard 10, ECCLevel.M), capacity 1728 513 311 213 131 4 69 43 1 70 44),
  ((Size.Standard 10, ECCLevel.Q), capacity 1232 364 221 151 93 6 43 19 2 44 20),
  ((Size.Standard 10, ECCLevel.H), capacity 976 288 174 119 74 6 43 15 2 44 16),
  ((Size.Standard 11, ECCLevel.L), capacity 2592 772 468 321 198 4 101 81 0 0 0),
  ((Size.Standard 11, ECCLevel.M), capacity 2032 604 366 251 155 1 80 50 4 81 51),
  ((Size.Standard 11, ECCLevel.Q), capacity 1440 427 259 177 109 4 50 22 4 51 23),
  ((Size.Standard 11, ECCLevel.H), capacity 1120 331 200 137 85 3 36 12 8 37 13),
  ((Size.Standard 12, ECCLevel.L), capacity 2960 883 535 367 226 2 116 92 2 117 93),
  ((Size.Standard 12, ECCLevel.M), capacity 2320 691 419 287 177 6 58 36 2 59 37),
  ((Size.Standard 12, ECCLevel.Q), capacity 1648 489 296 203 125 4 46 20 6 47 21),
  ((Size.Standard 12, ECCLevel.H), capacity 1264 374 227 155 96 7 42 14 4 43 15),
  ((Size.Standard 13, ECCLevel.L), capacity 3424 1022 619 425 262 4 133 107 0 0 0),
  ((Size.Standard 13, ECCLevel.M), capacity 2672 796 483 331 204 8 59 37 1 60 38),
  ((Size.Standard 13, ECCLevel.Q), capacity 1952 580 352 241 149 8 44 20 4 45 21),
  ((Size.Standard 13, ECCLevel.H), capacity 1440 427 259 177 109 12 33 11 4 34 12),
  ((Size.Standard 14, ECCLevel.L), capacity 3688 1101 667 458 282 3 145 115 1 146 116),
  ((Size.Standard 14, ECCLevel.M), capacity 2920 871 528 362 223 4 64 40 5 65 41),
  ((Size.Standard 14, ECCLevel.Q), capacity 2088 621 376 258 159 11 36 16 5 37 17),
  ((Size.Standard 14, ECCLevel.H), capacity 1576 468 283 194 120 11 36 12 5 37 13),
  ((Size.Standard 15, ECCLevel.L), capacity 4184 1250 758 520 320 5 109 87 1 110 88),
  ((Size.Standard 15, ECCLevel.M), capacity 3320 991 600 412 254 5 65 41 5 66 42),
  ((Size.Standard 15, ECCLevel.Q), capacity 2360 703 426 292 180 5 54 24 7 55 25),
  ((Size.Standard 15, ECCLevel.H), capacity 1784 530 321 220 136 11 36 12 7 37 13),
  ((Size.Standard 16, ECCLevel.L), capacity 4712 1408 854 586 361 5 122 98 1 123 99),
  ((Size.Standard 16, ECCLevel.M), capacity 3624 1082 656 450 277 7 73 45 3 74 46),
  ((Size.Standard 16, ECCLevel.Q), capacity 2600 775 470 322 198 15 43 19 2 44 20),
  ((Size.Standard 16, ECCLevel.H), capacity 2024 602 365 250 154 3 45 15 13 46 16),
  ((Size.Standard 17, ECCLevel.L), capacity 5176 1548 938 644 397 1 135 107 5 136 108),
  ((Size.Standard 17, ECCLevel.M), capacity 4056 1212 734 504 310 10 74 46 1 75 47),
  ((Size.Standard 17, ECCLevel.Q), capacity 2936 876 531 364 224 1 50 22 15 51 23),
  ((Size.Standard 17, ECCLevel.H), capacity 2264 674 408 280 173 2 42 14 17 43 15),
  ((Size.Standard 18, ECCLevel.L), capacity 5768 1725 1046 718 442 5 150 120 1 151 121),
  ((Size.Standard 18, ECCLevel.M), capacity 4504 1346 816 560 345 9 69 43 4 70 44),
  ((Size.Standard 18, ECCLevel.Q), capacity 3176 948 574 394 243 17 50 22 1 51 23),
  ((Size.Standard 18, ECCLevel.H), capacity 2504 746 452 310 191 2 42 14 19 43 15),
  ((Size.Standard 19, ECCLevel.L), capacity 6360 1903 1153 792 488 3 141 113 4 142 114),
  ((Size.Standard 19, ECCLevel.M), capacity 5016 1500 909 624 384 3 70 44 11 71 45),
  ((Size.Standard 19, ECCLevel.Q), capacity 3560 1063 644 442 272 17 47 21 4 48 22),
  ((Size.Standard 19, ECCLevel.H), capacity 2728 813 493 338 208 9 39 13 16 40 14),
  ((Size.Standard 20, ECCLevel.L), capacity 6888 2061 1249 858 528 3 135 107 5 136 108),
  ((Size.Standard 20, ECCLevel.M), capacity 5352 1600 970 666 410 3 67 41 13 68 42),
  ((Size.Standard 20, ECCLevel.Q), capacity 3880 1159 702 482 297 15 54 24 5 55 25),
  ((Size.Standard 20, ECCLevel.H), capacity 3080 919 557 382 235 15 43 15 10 44 16),
  ((Size.Standard 21, ECCLevel.L), capacity 7456 2232 1352 929 572 4 144 116 4 145 117),
  ((Size.Standard 21, ECCLevel.M), capacity 5712 1708 1035 711 438 17 68 42 0 0 0),
  ((Size.Standard 21, ECCLevel.Q), capacity 4096 1224 742 509 314 17 50 22 6 51 23),
  ((Size.Standard 21, ECCLevel.H), capacity 3248 969 587 403 248 19 46 16 6 47 17),
  ((Size.Standard 22, ECCLevel.L), capacity 8048 2409 1460 1003 618 2 139 111 7 140 112),
  ((Size.Standard 22, ECCLevel.M), capacity 6256 1872 1134 779 480 17 74 46 0 0 0),
  ((Size.Standard 22, ECCLevel.Q), capacity 4544 1358 823 565 348 7 54 24 16 55 25),
  ((Size.Standard 22, ECCLevel.H), capacity 3536 1056 640 439 270 34 37 13 0 0 0),
  ((Size.Standard 23, ECCLevel.L), capacity 8752 2620 1588 1091 672 4 151 121 5 152 122),
  ((Size.Standard 23, ECCLevel.M), capacity 6880 2059 1248 857 528 4 75 47 14 76 48),
  ((Size.Standard 23, ECCLevel.Q), capacity 4912 1468 890 611 376 11 54 24 14 55 25),
  ((Size.Standard 23, ECCLevel.H), capacity 3712 1108 672 461 284 16 45 15 14 46 16),
  ((Size.Standard 24, ECCLevel.L), capacity 9392 2812 1704 1171 721 6 147 117 4 148 118),
  ((Size.Standard 24, ECCLevel.M), capacity 7312 2188 1326 911 561 6 73 45 14 74 46),
  ((Size.Standard 24, ECCLevel.Q), capacity 5312 1588 963 661 407 11 54 24 16 55 25),
  ((Size.Standard 24, ECCLevel.H), capacity 4112 1228 744 511 315 30 46 16 2 47 17),
  ((Size.Standard 25, ECCLevel.L), capacity 10208 3057 1853 1273 784 8 132 106 4 133 107),
  ((Size.Standard 25, ECCLevel.M), capacity 8000 2395 1451 997 614 8 75 47 13 76 48),
  ((Size.Standard 25, ECCLevel.Q), capacity 5744 1718 1041 715 440 7 54 24 22 55 25),
  ((Size.Standard 25, ECCLevel.H), capacity 4304 1286 779 535 330 22 45 15 13 46 16),
  ((Size.Standard 26, ECCLevel.L), capacity 10960 3283 1990 1367 842 10 142 114 2 143 115),
  ((Size.Standard 26, ECCLevel.M), capacity 8496 2544 1542 1059 652 19 74 46 4 75 47),
  ((Size.Standard 26, ECCLevel.Q), capacity 6032 1804 1094 751 462 28 50 22 6 51 23),
  ((Size.Standard 26, ECCLevel.H), capacity 4768 1425 864 593 365 33 46 16 4 47 17),
  ((Size.Standard 27, ECCLevel.L), capacity 11744 3517 2132 1465 902 8 152 122 4 153 123),
  ((Size.Standard 27, ECCLevel.M), capacity 9024 2701 1637 1125 692 22 73 45 3 74 46),
  ((Size.Standard 27, ECCLevel.Q), capacity 6464 1933 1172 805 496 8 53 23 26 54 24),
  ((Size.Standard 27, ECCLevel.H), capacity 5024 1501 910 625 385 12 45 15 28 46 16),
  ((Size.Standard 28, ECCLevel.L), capacity 12248 3669 2223 1528 940 3 147 117 10 148 118),
  ((Size.Standard 28, ECCLevel.M), capacity 9544 2857 1732 1190 732 3 73 45 23 74 46),
  ((Size.Standard 28, ECCLevel.Q), capacity 6968 2085 1263 868 534 4 54 24 31 55 25),
  ((Size.Standard 28, ECCLevel.H), capacity 5288 1581 958 658 405 11 45 15 31 46 16),
  ((Size.Standard 29, ECCLevel.L), capacity 13048 3909 2369 1628 1002 7 146 116 7 147 117),
  ((Size.Standard 29, ECCLevel.M), capacity 10136 3035 1839 1264 778 21 73 45 7 74 46),
  ((Size.Standard 29, ECCLevel.Q), capacity 7288 2181 1322 908 559 1 53 23 37 54 24),
  ((Size.Standard 29, ECCLevel.H), capacity 5608 1677 1016 698 430 19 45 15 26 46 16),
  ((Size.Standard 30, ECCLevel.L), capacity 13880 4158 2520 1732 1066 5 145 115 10 146 116),
  ((Size.Standard 30, ECCLevel.M), capacity 10984 3289 1994 1370 843 19 75 47 10 76 48),
  ((Size.Standard 30, ECCLevel.Q), capacity 7880 2358 1429 982 604 15 54 24 25 55 25),
  ((Size.Standard 30, ECCLevel.H), capacity 5960 1782 1080 742 457 23 45 15 25 46 16),
  ((Size.Standard 31, ECCLevel.L), capacity 14744 4417 2677 1840 1132 13 145 115 3 146 116),
  ((Size.Standard 31, ECCLevel.M), capacity 11640 3486 2113 1452 894 2 74 46 29 75 47),
  ((Size.Standard 31, ECCLevel.Q), capacity 8264 2473 1499 1030 634 42 54 24 1 55 25),
  ((Size.Standard 31, ECCLevel.H), capacity 6344 1897 1150 790 486 23 45 15 28 46 16),
  ((Size.Standard 32, ECCLevel.L), capacity 15640 4686 2840 1952 1201 17 145 115 0 0 0),
  ((Size.Standard 32, ECCLevel.M), capacity 12328 3693 2238 1538 947 10 74 46 23 75 47),
  ((Size.Standard 32, ECCLevel.Q), capacity 8920 2670 1618 1112 684 10 54 24 35 55 25),
  ((Size.Standard 32, ECCLevel.H), capacity 6760 2022 1226 842 518 19 45 15 35 46 16),
  ((Size.Standard 33, ECCLevel.L), capacity 16568 4965 3009 2068 1273 17 145 115 1 146 116),
  ((Size.Standard 33, ECCLevel.M), capacity 13048 3909 2369 1628 1002 14 74 46 21 75 47),
  ((Size.Standard 33, ECCLevel.Q), capacity 9368 2805 1700 1168 719 29 54 24 19 55 25),
  ((Size.Standard 33, ECCLevel.H), capacity 7208 2157 1307 898 553 11 45 15 46 46 16),
  ((Size.Standard 34, ECCLevel.L), capacity 17528 5253 3183 2188 1347 13 145 115 6 146 116),
  ((Size.Standard 34, ECCLevel.M), capacity 13800 4134 2506 1722 1060 14 74 46 23 75 47),
  ((Size.Standard 34, ECCLevel.Q), capacity 9848 2949 1787 1228 756 44 54 24 7 55 25),
  ((Size.Standard 34, ECCLevel.H), capacity 7688 2301 1394 958 590 59 46 16 1 47 17),
  ((Size.Standard 35, ECCLevel.L), capacity 18448 5529 3351 2303 1417 12 151 121 7 152 122),
  ((Size.Standard 35, ECCLevel.M), capacity 14496 4343 2632 1809 1113 12 75 47 26 76 48),
  ((Size.Standard 35, ECCLevel.Q), capacity 10288 3081 1867 1283 790 39 54 24 14 55 25),
  ((Size.Standard 35, ECCLevel.H), capacity 7888 2361 1431 983 605 22 45 15 41 46 16),
  ((Size.Standard 36, ECCLevel.L), capacity 19472 5836 3537 2431 1496 6 151 121 14 152 122),
  ((Size.Standard 36, ECCLevel.M), capacity 15312 4588 2780 1911 1176 6 75 47 34 76 48),
  ((Size.Standard 36, ECCLevel.Q), capacity 10832 3244 1966 1351 832 46 54 24 10 55 25),
  ((Size.Standard 36, ECCLevel.H), capacity 8432 2524 1530 1051 647 2 45 15 64 46 16),
  ((Size.Standard 37, ECCLevel.L), capacity 20528 6153 3729 2563 1577 17 152 122 4 153 123),
  ((Size.Standard 37, ECCLevel.M), capacity 15936 4775 2894 1989 1224 29 74 46 14 75 47),
  ((Size.Standard 37, ECCLevel.Q), capacity 11408 3417 2071 1423 876 49 54 24 10 55 25),
  ((Size.Standard 37, ECCLevel.H), capacity 8768 2625 1591 1093 673 24 45 15 46 46 16),
  ((Size.Standard 38, ECCLevel.L), capacity 21616 6479 3927 2699 1661 4 152 122 18 153 123),
  ((Size.Standard 38, ECCLevel.M), capacity 16816 5039 3054 2099 1292 13 74 46 32 75 47),
  ((Size.Standard 38, ECCLevel.Q), capacity 12016 3599 2181 1499 923 48 54 24 14 55 25),
  ((Size.Standard 38, ECCLevel.H), capacity 9136 2735 1658 1139 701 42 45 15 32 46 16),
  ((Size.Standard 39, ECCLevel.L), capacity 22496 6743 4087 2809 1729 20 147 117 4 148 118),
  ((Size.Standard 39, ECCLevel.M), capacity 17728 5313 3220 2213 1362 40 75 47 7 76 48),
  ((Size.Standard 39, ECCLevel.Q), capacity 12656 3791 2298 1579 972 43 54 24 22 55 25),
  ((Size.Standard 39, ECCLevel.H), capacity 9776 2927 1774 1219 750 10 45 15 67 46 16),
  ((Size.Standard 40, ECCLevel.L), capacity 23648 7089 4296 2953 1817 19 148 118 6 149 119),
  ((Size.Standard 40, ECCLevel.M), capacity 18672 5596 3391 2331 1435 18 75 47 31 76 48),
  ((Size.Standard 40, ECCLevel.Q), capacity 13328 3993 2420 1663 1024 34 54 24 34 55 25),
  ((Size.Standard 40, ECCLevel.H), capacity 10208 3057 1852 1273 784 20 45 15 61 46 16)
]

/-- lookup_capacity.  The Rust version indexes a HashMap and panics on a
missing key; here the missing-key case is Option.none. -/
def lookup_capacity (s : Size) (ecc : ECCLevel) : Option SymbolCapacity :=
  (SYMBOL_CAPACITY_TABLE.find? (fun e => decide (e.1.1 = s ∧ e.1.2 = ecc))).map (·.2)

/-! ## bitcoding.rs: finalize_bitstream -/

/-- The pad-codeword loop of finalize_bitstream: `n` bytes alternating
between 0b11101100 and 0b00010001, starting with 0b11101100. -/
def padBytesList (n : Nat) : List Bool :=
  ((List.range n).map fun i =>
    natToBits 8 (if i % 2 = 0 then 0b11101100 else 0b00010001)).flatten

/-- First block of finalize_bitstream: append the terminator, at most
`terminator_length` zero bits and at least as many as fit in `cap`. -/
def finalize_stage1 (stream : List Bool) (cap term : Nat) : List Bool :=
  stream ++ List.replicate (min (cap - stream.length) term) false

/-- Second block of finalize_bitstream: pad with zeroes to the next full
byte, with the Micro(1)/Micro(3) special case when the write position is
already inside the final 4-bit codeword. -/
def finalize_stage2 (cap : Nat) (m13 : Bool) (s1 : List Bool) : List Bool :=
  if s1.length % 8 > 0 then
    if m13 ∧ s1.length + 4 > cap then
      s1 ++ List.replicate (cap - s1.length) false
    else
      s1 ++ List.replicate (8 - s1.length % 8) false
  else s1

/-- Third block of finalize_bitstream: fill the remaining whole bytes
with the alternating pad codewords. -/
def finalize_stage3 (cap : Nat) (s2 : List Bool) : List Bool :=
  s2 ++ padBytesList ((cap - s2.length) / 8)

/-- Fourth block of finalize_bitstream: the last four missing bits of a
Micro(1)/Micro(3) symbol, plus the closing assertions
(`bits_left` is 4 there and 0 otherwise, and the recorded length then
equals `cap`); a failed assertion is none. -/
def finalize_stage4 (cap : Nat) (m13 : Bool) (s3 : List Bool) : Option (List Bool) :=
  if m13 ∧ cap - s3.length > 0 then
    if cap - s3.length = 4 then
      if (s3 ++ List.replicate 4 false).length = cap then
        some (s3 ++ List.replicate 4 false)
      else none
    else none
  else
    if cap - s3.length = 0 ∧ s3.length = cap then some s3 else none

/-- finalize_bitstream up to (and including) the final assertion
`stream.written() == bit_capacity`; the returned stream is the recorded
bit sequence at that point.  Failed asserts and u32 underflows are none.
The stages are the four commented blocks of the source, in order. -/
def finalize_recorded (stream : List Bool) (size : Size) (ecl : ECCLevel) :
    Option (List Bool) :=
  match lookup_capacity size ecl with
  | none => none
  | some c =>
    -- assert!(bit_rawdatasize <= bit_capacity)
    if stream.length ≤ c.data_bits then
      let s1 := finalize_stage1 stream c.data_bits (terminator_length size)
      let s2 := finalize_stage2 c.data_bits (isM13 size) s1
      -- the u32 difference bit_capacity - stream.written() must not underflow
      if s2.length ≤ c.data_bits then
        let s3 := finalize_stage3 c.data_bits s2
        if s3.length ≤ c.data_bits then
          finalize_stage4 c.data_bits (isM13 size) s3
        else none
      else none
    else none

/-- finalize_bitstream: after the final assertion, Micro(1)/Micro(3)
streams get four more zero bits so the result is a whole number of
bytes (the playback into the byte vector is the identity on bits). -/
def finalize_bitstream (stream : List Bool) (size : Size) (ecl : ECCLevel) :
    Option (List Bool) :=
  (finalize_recorded stream size ecl).map fun s =>
    if isM13 size then s ++ List.replicate 4 false else s


/-! ## serialization.rs: format information -/

/-- FORMAT_INFOS_QR: the 32-entry lookup of 15-bit format words for
standard symbols (table C.1 of the standard), indexed by the 5 data
bits. -/
def FORMAT_INFOS_QR : List Nat := [
  0x5412, 0x5125, 0x5E7C, 0x5B4B, 0x45F9, 0x40CE, 0x4F97, 0x4AA0,
  0x77C4, 0x72F3, 0x7DAA, 0x789D, 0x662F, 0x6318, 0x6C41, 0x6976,
  0x1689, 0x13BE, 0x1CE7, 0x19D0, 0x0762, 0x0255, 0x0D0C, 0x083B,
  0x355F, 0x3068, 0x3F31, 0x3A06, 0x24B4, 0x2183, 0x2EDA, 0x2BED]

/-- FORMAT_INFOS_MICRO_QR: the corresponding lookup for micro symbols. -/
def FORMAT_INFOS_MICRO_QR : List Nat := [
  0x4445, 0x4172, 0x4E2B, 0x4B1C, 0x55AE, 0x5099, 0x5FC0, 0x5AF7,
  0x6793, 0x62A4, 0x6DFD, 0x68CA, 0x7678, 0x734F, 0x7C16, 0x7921,
  0x06DE, 0x03E9, 0x0CB0, 0x0987, 0x1735, 0x1202, 0x1D5B, 0x186C,
  0x2508, 0x203F, 0x2F66, 0x2A51, 0x34E3, 0x31D4, 0x3E8D, 0x3BBA]

/-- compute_format_info_bits.  The micro match over (version, ECC) is
written as an ordered conditional chain; the wildcard arm (an invalid
size and ECC combination) and an out-of-range table index are none. -/
def compute_format_info_bits (size : Size) (ecl : ECCLevel) (mask_pattern : Nat) :
    Option Nat :=
  match size with
  | .Micro i =>
      (if i = 1 ∧ ecl = ECCLevel.L then some 0b00000
       else if i = 2 ∧ ecl = ECCLevel.L then some 0b00100
       else if i = 2 ∧ ecl = ECCLevel.M then some 0b01000
       else if i = 3 ∧ ecl = ECCLevel.L then some 0b01100
       else if i = 3 ∧ ecl = ECCLevel.M then some 0b10000
       else if i = 4 ∧ ecl = ECCLevel.L then some 0b10100
       else if i = 4 ∧ ecl = ECCLevel.M then some 0b11000
       else if i = 4 ∧ ecl = ECCLevel.Q then some 0b11100
       else none).bind fun d =>
        let idx := d ||| mask_pattern
        if idx < 32 then some (FORMAT_INFOS_MICRO_QR.getD idx 0) else none
  | .Standard _ =>
      let d : Nat :=
        match ecl with
        | .L => 0b01000
        | .M => 0b00000
        | .Q => 0b11000
        | .H => 0b10000
      let idx := d ||| mask_pattern
      if idx < 32 then some (FORMAT_INFOS_QR.getD idx 0) else none

/-- One reduction step of the BCH(15,5) polynomial remainder over GF(2):
clear bit `b` of `r` with the format generator polynomial
g(x) = x^10 + x^8 + x^5 + x^4 + x^2 + x + 1 (0x537).
This is the reference computation the spec describes; the source keeps
only the precomputed 32-entry tables. -/
def bch15_step (r b : Nat) : Nat :=
  if r.testBit b then r ^^^ (0x537 <<< (b - 10)) else r

/-- BCH(15,5) encoding of a 5-bit value: the value followed by the
10-bit remainder of value * x^10 modulo the generator. -/
def bch15_5 (d : Nat) : Nat :=
  (d <<< 10) ^^^ ([14, 13, 12, 11, 10].foldl bch15_step (d <<< 10))

/-- The 2-bit ECC level code of standard format info
(L = 01, M = 00, Q = 11, H = 10). -/
def stdEccCode (ecl : ECCLevel) : Nat :=
  match ecl with
  | .L => 1
  | .M => 0
  | .Q => 3
  | .H => 2

/-- The 3-bit micro symbol sequence number of table C.1, by (version,
ECC); none for invalid combinations. -/
def microSymbolNumber (i : Nat) (ecl : ECCLevel) : Option Nat :=
  if i = 1 ∧ ecl = ECCLevel.L then some 0
  else if i = 2 ∧ ecl = ECCLevel.L then some 1
  else if i = 2 ∧ ecl = ECCLevel.M then some 2
  else if i = 3 ∧ ecl = ECCLevel.L then some 3
  else if i = 3 ∧ ecl = ECCLevel.M then some 4
  else if i = 4 ∧ ecl = ECCLevel.L then some 5
  else if i = 4 ∧ ecl = ECCLevel.M then some 6
  else if i = 4 ∧ ecl = ECCLevel.Q then some 7
  else none


/-! ## serialization.rs: image model and canvases

A GrayImage is modelled as dimensions plus a total pixel function
(column x, row y); indexing outside the dimensions never happens on the
pixels the code reads.  The reserved grayscale values of the source are
kept as plain numbers. -/

def MARKER_ENCODING_REGION : Nat := 100
def MARKER_FORMAT_INFORMATION : Nat := 120
def BIT_WHITE : Nat := 255
def BIT_BLACK : Nat := 0

structure GrayImage where
  width : Nat
  height : Nat
  pix : Nat → Nat → Nat

def getPix (img : GrayImage) (x y : Nat) : Nat := img.pix x y

def setPix (img : GrayImage) (x y v : Nat) : GrayImage :=
  { img with pix := fun a b => if a = x ∧ b = y then v else img.pix a b }

/-- GrayImage::from_pixel for a square image. -/
def from_pixel (s v : Nat) : GrayImage := ⟨s, s, fun _ _ => v⟩

/-- imageops::overlay: paint `top` onto `base` with its upper-left corner
at (ox, oy), clipped to the base. -/
def overlay (base top : GrayImage) (ox oy : Nat) : GrayImage :=
  { base with pix := fun x y =>
      if ox ≤ x ∧ x < ox + top.width ∧ oy ≤ y ∧ y < oy + top.height ∧
          x < base.width ∧ y < base.height then
        top.pix (x - ox) (y - oy)
      else base.pix x y }

/-- create_finder_pattern: 9 x 9 concentric squares with separator. -/
def create_finder_pattern : GrayImage :=
  ⟨9, 9, fun x y =>
    let r := max ((x : Int) - 4).natAbs ((y : Int) - 4).natAbs
    if r < 2 ∨ r = 3 then BIT_BLACK else BIT_WHITE⟩

/-- create_alignment_pattern: 5 x 5 concentric squares. -/
def create_alignment_pattern : GrayImage :=
  ⟨5, 5, fun x y =>
    let r := max ((x : Int) - 2).natAbs ((y : Int) - 2).natAbs
    if r % 2 = 0 then BIT_BLACK else BIT_WHITE⟩

/-- create_alignment_pattern_coord_list (row of table E.1). -/
def create_alignment_pattern_coord_list (size : Nat) : List Nat :=
  6 ::
    (if 2 ≤ size ∧ size < 7 then [(size - 2) * 4 + 18]
     else if 7 ≤ size ∧ size < 14 then [(size - 7) * 2 + 22, (size - 7) * 4 + 38]
     else if 14 ≤ size ∧ size < 21 then
       let a := (size - 14) / 3 * 4 + 26
       let b := (size - 14) * 4 + 66
       [a, (a + b) / 2, b]
     else if 21 ≤ size ∧ size < 28 then
       let b := (size - 21) / 2 * 4 + 50
       let d := (size - 21) * 4 + 94
       (match size with
        | 21 => [28] | 22 => [26] | 23 => [30] | 24 => [28]
        | 25 => [32] | 26 => [30] | 27 => [34] | _ => []) ++ [b, (b + d) / 2, d]
     else if 28 ≤ size ∧ size < 35 then
       match size with
       | 28 => [26, 50, 74, 98, 122]
       | 29 => [30, 54, 78, 102, 126]
       | 30 => [26, 52, 78, 104, 130]
       | 31 => [30, 56, 82, 108, 134]
       | 32 => [34, 60, 86, 112, 138]
       | 33 => [30, 58, 86, 114, 142]
       | 34 => [34, 62, 90, 118, 146]
       | _ => []
     else if 35 ≤ size ∧ size ≤ 40 then
       match size with
       | 35 => [30, 54, 78, 102, 126, 150]
       | 36 => [24, 50, 76, 102, 128, 154]
       | 37 => [28, 54, 80, 106, 132, 158]
       | 38 => [32, 58, 84, 110, 136, 162]
       | 39 => [26, 54, 82, 110, 138, 166]
       | 40 => [30, 58, 86, 114, 142, 170]
       | _ => []
     else [])

/-- get_alignment_pattern_points: the Cartesian product of the
coordinate list with itself, minus the three finder corners. -/
def get_alignment_pattern_points (size : Nat) : List (Nat × Nat) :=
  let coords := create_alignment_pattern_coord_list size
  let last := coords.length - 1
  ((List.range coords.length).map fun i =>
    (List.range coords.length).filterMap fun j =>
      if (i = 0 ∧ j = 0) ∨ (i = 0 ∧ j = last) ∨ (i = last ∧ j = 0) then none
      else some (coords.getD i 0, coords.getD j 0)).flatten

/-- create_standard_qt_canvas; the size assertion is none on failure. -/
def create_standard_qt_canvas (size : Nat) : Option GrayImage :=
  if 1 ≤ size ∧ size ≤ 40 then
    let s := 17 + 4 * size + 8
    let m0 := from_pixel s MARKER_ENCODING_REGION
    -- mark quiet area
    let m1 := (List.range s).foldl (fun m i =>
      (List.range 4).foldl (fun m2 j =>
        setPix (setPix (setPix (setPix m2 j i BIT_WHITE) i j BIT_WHITE)
          (s - j - 1) i BIT_WHITE) i (s - j - 1) BIT_WHITE) m) m0
    -- three finder patterns
    let m2 := overlay m1 create_finder_pattern 3 3
    let m3 := overlay m2 create_finder_pattern 3 (s - 12)
    let m4 := overlay m3 create_finder_pattern (s - 12) 3
    -- timing patterns, i in 10..(s-12)
    let m5 := (List.range' 10 (s - 22)).foldl (fun m i =>
      let v := if i % 2 = 0 then BIT_BLACK else BIT_WHITE
      setPix (setPix m 10 i v) i 10 v) m4
    -- alignment patterns for version >= 2
    let m6 :=
      if 2 ≤ size then
        (get_alignment_pattern_points size).foldl (fun m pt =>
          overlay m create_alignment_pattern (pt.1 + 2) (pt.2 + 2)) m5
      else m5
    -- format bit reservations
    let m7 := (List.range 6).foldl (fun m i =>
      setPix (setPix (setPix (setPix m 12 (4 + i) MARKER_FORMAT_INFORMATION)
        (4 + i) 12 MARKER_FORMAT_INFORMATION)
        (s - 5 - i) 12 MARKER_FORMAT_INFORMATION)
        12 (s - 5 - i) MARKER_FORMAT_INFORMATION) m6
    let m8 :=
      setPix (setPix (setPix (setPix (setPix (setPix (setPix m7
        12 11 MARKER_FORMAT_INFORMATION)
        11 12 MARKER_FORMAT_INFORMATION)
        12 12 MARKER_FORMAT_INFORMATION)
        12 (s - 11) MARKER_FORMAT_INFORMATION)
        12 (s - 12) MARKER_FORMAT_INFORMATION)
        (s - 11) 12 MARKER_FORMAT_INFORMATION)
        (s - 12) 12 MARKER_FORMAT_INFORMATION
    -- version bit reservations for version >= 7 (marked with the format
    -- marker value, exactly as in the source)
    let m9 :=
      if 7 ≤ size then
        (List.range 6).foldl (fun m i =>
          (List.range 3).foldl (fun m2 j =>
            setPix (setPix m2 (4 + i) (s - 13 - j) MARKER_FORMAT_INFORMATION)
              (s - 13 - j) (4 + i) MARKER_FORMAT_INFORMATION) m) m8
      else m8
    some m9
  else none

/-- create_micro_qr_canvas; the size assertion is none on failure. -/
def create_micro_qr_canvas (size : Nat) : Option GrayImage :=
  if 1 ≤ size ∧ size ≤ 4 then
    let s := 9 + 2 * size + 4
    let m0 := from_pixel s MARKER_ENCODING_REGION
    let m1 := (List.range s).foldl (fun m i =>
      (List.range 2).foldl (fun m2 j =>
        setPix (setPix (setPix (setPix m2 j i BIT_WHITE) i j BIT_WHITE)
          (s - j - 1) i BIT_WHITE) i (s - j - 1) BIT_WHITE) m) m0
    let m2 := overlay m1 create_finder_pattern 1 1
    -- timing patterns, i in 10..(s-2)
    let m3 := (List.range' 10 (s - 12)).foldl (fun m i =>
      let v := if i % 2 = 0 then BIT_BLACK else BIT_WHITE
      setPix (setPix m 2 i v) i 2 v) m2
    -- format bit reservations, i in 3..11
    let m4 := (List.range' 3 8).foldl (fun m i =>
      setPix (setPix m 10 i MARKER_FORMAT_INFORMATION)
        i 10 MARKER_FORMAT_INFORMATION) m3
    some m4
  else none

/-- create_qr_canvas. -/
def create_qr_canvas (size : Size) : Option GrayImage :=
  match size with
  | .Micro s => create_micro_qr_canvas s
  | .Standard s => create_standard_qt_canvas s

/-! ## serialization/masking.rs -/

/-- get_masking_function.  The coordinates are i32 in the source, with
truncated division and remainder; the functions are only ever applied to
encoding-region coordinates (which lie past the quiet zone), but they
are transcribed on Int with Rust truncated semantics everywhere. -/
def get_masking_function (pattern_index : Nat) (size : Size) :
    Option (Int → Int → Bool) :=
  match size with
  | .Micro _ =>
      match pattern_index with
      | 0 => some fun i _j => (i - 2).tmod 2 = 0
      | 1 => some fun i j => ((i - 2).tdiv 2 + (j - 2).tdiv 3).tmod 2 = 0
      | 2 => some fun i j =>
          (((i - 2) * (j - 2)).tmod 2 + ((i - 2) * (j - 2)).tmod 3).tmod 2 = 0
      | 3 => some fun i j =>
          (((i - 2) + (j - 2)).tmod 2 + ((i - 2) * (j - 2)).tmod 3).tmod 2 = 0
      | _ => none
  | .Standard _ =>
      match pattern_index with
      | 0 => some fun i j => ((i - 4) + (j - 4)).tmod 2 = 0
      | 1 => some fun i _j => (i - 4).tmod 2 = 0
      | 2 => some fun _i j => (j - 4).tmod 3 = 0
      | 3 => some fun i j => ((i - 4) + (j - 4)).tmod 3 = 0
      | 4 => some fun i j => ((i - 4).tdiv 2 + (j - 4).tdiv 3).tmod 2 = 0
      | 5 => some fun i j =>
          ((i - 4) * (j - 4)).tmod 2 + ((i - 4) * (j - 4)).tmod 3 = 0
      | 6 => some fun i j =>
          (((i - 4) * (j - 4)).tmod 2 + ((i - 4) * (j - 4)).tmod 3).tmod 2 = 0
      | 7 => some fun i j =>
          (((i - 4) + (j - 4)).tmod 2 + ((i - 4) * (j - 4)).tmod 3).tmod 2 = 0
      | _ => none

/-- apply_mask: flip every encoding-region pixel of `symbol` (as marked
by `marker`) where the mask predicate holds at (row, column). -/
def apply_mask (symbol : GrayImage) (pattern : Nat) (size : Size)
    (marker : GrayImage) : Option GrayImage :=
  (get_masking_function pattern size).map fun f =>
    { symbol with pix := fun x y =>
        if (getPix marker x y = MARKER_ENCODING_REGION ∧ f (y : Int) (x : Int)) then
          if getPix symbol x y = BIT_BLACK then BIT_WHITE else BIT_BLACK
        else getPix symbol x y }

/-- compute_mask_score_micro: counts of dark modules along the column
x = width - 2 (rows 3 to height - 3) and the row y = height - 2
(columns 3 to width - 3), combined as 16 * min + max. -/
def compute_mask_score_micro (img : GrayImage) : Nat :=
  let sum1 := (List.range' 3 (img.height - 2 - 3)).countP fun y =>
    decide (getPix img (img.width - 2) y = BIT_BLACK)
  let sum2 := (List.range' 3 (img.width - 2 - 3)).countP fun x =>
    decide (getPix img x (img.height - 2) = BIT_BLACK)
  if sum1 ≤ sum2 then sum1 * 16 + sum2 else sum2 * 16 + sum1

/-- Modelled from the spec (C3): `sum1` counts the dark modules in the
rightmost interior column (x = width - 3, the interior being the symbol
inside the 2-module quiet zone) excluding its top two cells, `sum2` the
dark modules in the bottom interior row (y = height - 3) excluding its
leftmost two cells; the score is 16 * sum1 + sum2 if sum1 <= sum2 and
16 * sum2 + sum1 otherwise. -/
def micro_score_spec (img : GrayImage) : Nat :=
  let sum1 := (List.range' 4 (img.height - 6)).countP fun y =>
    decide (getPix img (img.width - 3) y = BIT_BLACK)
  let sum2 := (List.range' 4 (img.width - 6)).countP fun x =>
    decide (getPix img x (img.height - 3) = BIT_BLACK)
  if sum1 ≤ sum2 then 16 * sum1 + sum2 else 16 * sum2 + sum1

/-- A masked micro symbol with every encoding-region module dark (the
data placement and mask stages only ever write BIT_BLACK or BIT_WHITE
into encoding-region cells; this image darkens them all). -/
def darkenEncodingRegion (img : GrayImage) : GrayImage :=
  { img with pix := fun x y =>
      if img.pix x y = MARKER_ENCODING_REGION then BIT_BLACK else img.pix x y }


/-! ## serialization/masking.rs: standard penalty score

The score accumulator is u32 in the source; the N3 feature subtracts a
constant 9 * 40 after each of its two scans, so the running value is
modelled exactly on Int and reduced modulo 2^32 at the end (release
u32 semantics; the wrapped result agrees with the exact sum reduced
mod 2^32 because wrapping addition and subtraction form a ring). -/

/-- The N1 run-length scan of one line.  The source starts every line
with `last_color = WHITE` and `current_run = 1` before looking at the
first module; the fold state is (score, last_color, current_run). -/
def n1_line (cells : List Nat) : Nat :=
  let f := cells.foldl (fun (st : Nat × Nat × Nat) px =>
    if px = st.2.1 then (st.1, st.2.1, st.2.2 + 1)
    else ((if st.2.2 ≥ 5 then st.1 + (st.2.2 - 5) + 3 else st.1), px, 1))
    (0, BIT_WHITE, 1)
  if f.2.2 ≥ 5 then f.1 + (f.2.2 - 5) + 3 else f.1

/-- N1 summed over the rows y in 4..(height-4), x in 4..(width-4). -/
def n1_rows (img : GrayImage) : Nat :=
  ((List.range' 4 (img.height - 8)).map fun y =>
    n1_line ((List.range' 4 (img.width - 8)).map fun x => getPix img x y)).sum

/-- N1 summed over the columns. -/
def n1_cols (img : GrayImage) : Nat :=
  ((List.range' 4 (img.width - 8)).map fun x =>
    n1_line ((List.range' 4 (img.height - 8)).map fun y => getPix img x y)).sum

/-- N2: 3 per 2 x 2 block of one colour, y in 4..(height-5),
x in 4..(width-5). -/
def n2_score (img : GrayImage) : Nat :=
  3 * ((List.range' 4 (img.height - 9)).map fun y =>
    (List.range' 4 (img.width - 9)).countP fun x =>
      decide (getPix img x y = getPix img (x + 1) y ∧
        getPix img x y = getPix img x (y + 1) ∧
        getPix img x y = getPix img (x + 1) (y + 1))).sum

/-- The N3 module pattern 1011101 as pixel values. -/
def N3_PATTERN : List Nat :=
  [BIT_BLACK, BIT_WHITE, BIT_BLACK, BIT_BLACK, BIT_BLACK, BIT_WHITE, BIT_BLACK]

/-- The N3 pattern test of the source on a line `g` (a row or column of
the image): the seven cells from `x` equal the pattern exactly. -/
def line_hit (g : Nat → Nat) (x : Nat) : Bool :=
  decide ((List.range' x 7).map g = N3_PATTERN)

/-- The N3 light-window test of the source: no dark module among the
four cells before `x`, or none among the four cells after the pattern
(`is_black` bounds-checks against `L`, the image width in the source,
for rows and columns alike).  The scan only evaluates this at x >= 4,
so the Nat truncation in `x - 4` is never exercised. -/
def line_window (g : Nat → Nat) (L x : Nat) : Bool :=
  (!(List.range' (x - 4) 4).any fun t => decide (t < L ∧ g t = BIT_BLACK)) ||
  (!(List.range' (x + 7) 4).any fun t => decide (t < L ∧ g t = BIT_BLACK))

/-- Row y of the image as a line. -/
def rowAt (img : GrayImage) (y : Nat) : Nat → Nat := fun x => getPix img x y

/-- Column x of the image as a line. -/
def colAt (img : GrayImage) (x : Nat) : Nat → Nat := fun y => getPix img x y

/-- Number of penalised N3 occurrences in the row scan:
y in 4..(height-4), x in 4..(width-10). -/
def n3_rows_count (img : GrayImage) : Nat :=
  ((List.range' 4 (img.height - 8)).map fun y =>
    (List.range' 4 (img.width - 14)).countP fun x =>
      line_hit (rowAt img y) x && line_window (rowAt img y) img.width x).sum

/-- Number of penalised N3 occurrences in the column scan:
x in 4..(width-4), y in 4..(height-10); the bounds check inside
`is_black` uses the width, as in the source. -/
def n3_cols_count (img : GrayImage) : Nat :=
  ((List.range' 4 (img.width - 8)).map fun x =>
    (List.range' 4 (img.height - 14)).countP fun y =>
      line_hit (colAt img x) y && line_window (colAt img x) img.width y).sum

/-- N4: the dark-module balance.  The source computes
floor(|0.5 - dark/area| * 20) in f64; this is the same value computed
exactly over the rationals as |area - 2 * dark| * 10 / area
(the pixel count iterates over the whole image, quiet zone included,
while the area denominator is the interior only, as in the source). -/
def n4_score (img : GrayImage) : Nat :=
  let dark := ((List.range img.height).map fun y =>
    (List.range img.width).countP fun x => decide (getPix img x y = BIT_BLACK)).sum
  let area := (img.width - 8) * (img.height - 8)
  10 * ((((area : Int) - 2 * dark).natAbs * 10) / area)

/-- The running score of compute_mask_penalty_score_standard as an exact
integer: N1 rows and columns, N2, N3 rows minus the 9-occurrence finder
discount, N3 columns minus the same discount, N4. -/
def penalty_exact (img : GrayImage) : Int :=
  (n1_rows img : Int) + (n1_cols img : Int) + (n2_score img : Int) +
    (40 * (n3_rows_count img : Int) - 360) +
    (40 * (n3_cols_count img : Int) - 360) + (n4_score img : Int)

/-- compute_mask_penalty_score_standard: the exact running score reduced
to u32. -/
def compute_mask_penalty_score_standard (img : GrayImage) : Nat :=
  ((penalty_exact img) % (2 ^ 32)).toNat

/-- Modelled from the claim text of C5, word for word: an occurrence of
the pattern [dark, light, dark, dark, dark, light, dark] at position x
of a line of length L qualifies when it is preceded or followed by four
light modules, positions outside the bounds treated as absent. -/
def spec_line_qualifies_light (g : Nat → Nat) (L x : Nat) : Prop :=
  (g x = BIT_BLACK ∧ g (x + 1) = BIT_WHITE ∧ g (x + 2) = BIT_BLACK ∧
   g (x + 3) = BIT_BLACK ∧ g (x + 4) = BIT_BLACK ∧ g (x + 5) = BIT_WHITE ∧
   g (x + 6) = BIT_BLACK) ∧
  ((∀ t, t < L → x ≤ t + 4 → t < x → g t = BIT_WHITE) ∨
   (∀ t, t < L → x + 7 ≤ t → t < x + 11 → g t = BIT_WHITE))

instance (g : Nat → Nat) (L x : Nat) : Decidable (spec_line_qualifies_light g L x) := by
  unfold spec_line_qualifies_light; infer_instance

/-- Modelled from the claim text of C5: light-window qualifying
occurrences over every row of the symbol, every in-bounds position. -/
def spec_n3_rows_light (img : GrayImage) : Nat :=
  ((List.range img.height).map fun y =>
    (List.range (img.width - 6)).countP fun x =>
      decide (spec_line_qualifies_light (rowAt img y) img.width x)).sum

/-- Modelled from the claim text of C5: light-window qualifying
occurrences over every column of the symbol. -/
def spec_n3_cols_light (img : GrayImage) : Nat :=
  ((List.range img.width).map fun x =>
    (List.range (img.height - 6)).countP fun y =>
      decide (spec_line_qualifies_light (colAt img x) img.height y)).sum

/-- Modelled from the amended C5 property: the occurrence qualifies when
it is preceded or followed by four modules none of which is dark.  The
window test of the source checks only that no cell is BIT_BLACK, which
differs from the light-window reading of the claim on the reserved
marker cells (value 120) that a symbol still carries when the penalty
is evaluated during mask selection; positions outside the bounds are
treated as absent, as in the claim. -/
def amended_line_qualifies (g : Nat → Nat) (L x : Nat) : Prop :=
  (g x = BIT_BLACK ∧ g (x + 1) = BIT_WHITE ∧ g (x + 2) = BIT_BLACK ∧
   g (x + 3) = BIT_BLACK ∧ g (x + 4) = BIT_BLACK ∧ g (x + 5) = BIT_WHITE ∧
   g (x + 6) = BIT_BLACK) ∧
  ((∀ t, t < L → x ≤ t + 4 → t < x → g t ≠ BIT_BLACK) ∨
   (∀ t, t < L → x + 7 ≤ t → t < x + 11 → g t ≠ BIT_BLACK))

instance (g : Nat → Nat) (L x : Nat) : Decidable (amended_line_qualifies g L x) := by
  unfold amended_line_qualifies; infer_instance

/-- Modelled from the amended C5 property: qualifying occurrences over
every row of the symbol, every in-bounds position. -/
def amended_n3_rows (img : GrayImage) : Nat :=
  ((List.range img.height).map fun y =>
    (List.range (img.width - 6)).countP fun x =>
      decide (amended_line_qualifies (rowAt img y) img.width x)).sum

/-- Modelled from the amended C5 property: qualifying occurrences over
every column of the symbol. -/
def amended_n3_cols (img : GrayImage) : Nat :=
  ((List.range img.width).map fun x =>
    (List.range (img.height - 6)).countP fun y =>
      decide (amended_line_qualifies (colAt img x) img.height y)).sum

/-- The Standard(2) canvas, 25 modules plus the 4-module quiet zone on
each side (33 x 33); the Option default is never taken because the size
assertion of create_standard_qt_canvas holds for 2. -/
def v2_canvas : GrayImage :=
  (create_standard_qt_canvas 2).getD (from_pixel 0 0)

/-- A masked Standard(2) symbol as it stands when the penalty score is
evaluated during mask selection: the Standard(2) canvas with a concrete
black/white assignment written into its encoding region (data placement
followed by masking writes only BIT_BLACK or BIT_WHITE there) while the
reserved format cells still carry MARKER_FORMAT_INFORMATION, because
format information is written only after a mask has been chosen.  Row
12 holds the pattern 1011101 at x = 14..20: its right window x = 21..24
consists of four format marker cells and its left window contains the
dark timing cell at x = 10.  The agreement with the canvas is stated
cell by cell in the counterexample theorem. -/
def v2_masked_rows : List (List Nat) :=
  [[255, 255, 255, 255, 255, 255, 255, 255, 255, 255, 255, 255, 255, 255, 255, 255, 255, 255, 255, 255, 255, 255, 255, 255, 255, 255, 255, 255, 255, 255, 255, 255, 255],
   [255, 255, 255, 255, 255, 255, 255, 255, 255, 255, 255, 255, 255, 255, 255, 255, 255, 255, 255, 255, 255, 255, 255, 255, 255, 255, 255, 255, 255, 255, 255, 255, 255],
   [255, 255, 255, 255, 255, 255, 255, 255, 255, 255, 255, 255, 255, 255, 255, 255, 255, 255, 255, 255, 255, 255, 255, 255, 255, 255, 255, 255, 255, 255, 255, 255, 255],
   [255, 255, 255, 255, 255, 255, 255, 255, 255, 255, 255, 255, 255, 255, 255, 255, 255, 255, 255, 255, 255, 255, 255, 255, 255, 255, 255, 255, 255, 255, 255, 255, 255],
   [255, 255, 255, 255, 0, 0, 0, 0, 0, 0, 0, 255, 120, 255, 255, 255, 255, 255, 255, 255, 255, 255, 0, 0, 0, 0, 0, 0, 0, 255, 255, 255, 255],
   [255, 255, 255, 255, 0, 255, 255, 255, 255, 255, 0, 255, 120, 255, 255, 255, 255, 255, 255, 255, 255, 255, 0, 255, 255, 255, 255, 255, 0, 255, 255, 255, 255],
   [255, 255, 255, 255, 0, 255, 0, 0, 0, 255, 0, 255, 120, 255, 255, 255, 255, 255, 255, 255, 255, 255, 0, 255, 0, 0, 0, 255, 0, 255, 255, 255, 255],
   [255, 255, 255, 255, 0, 255, 0, 0, 0, 255, 0, 255, 120, 255, 255, 255, 255, 255, 255, 255, 255, 255, 0, 255, 0, 0, 0, 255, 0, 255, 255, 255, 255],
   [255, 255, 255, 255, 0, 255, 0, 0, 0, 255, 0, 255, 120, 255, 255, 255, 255, 255, 255, 255, 255, 255, 0, 255, 0, 0, 0, 255, 0, 255, 255, 255, 255],
   [255, 255, 255, 255, 0, 255, 255, 255, 255, 255, 0, 255, 120, 255, 255, 255, 255, 255, 255, 255, 255, 255, 0, 255, 255, 255, 255, 255, 0, 255, 255, 255, 255],
   [255, 255, 255, 255, 0, 0, 0, 0, 0, 0, 0, 255, 0, 255, 0, 255, 0, 255, 0, 255, 0, 255, 0, 0, 0, 0, 0, 0, 0, 255, 255, 255, 255],
   [255, 255, 255, 255, 255, 255, 255, 255, 255, 255, 255, 255, 120, 255, 255, 255, 255, 255, 255, 255, 255, 255, 255, 255, 255, 255, 255, 255, 255, 255, 255, 255, 255],
   [255, 255, 255, 255, 120, 120, 120, 120, 120, 120, 0, 120, 120, 255, 0, 255, 0, 0, 0, 255, 0, 120, 120, 120, 120, 120, 120, 120, 120, 255, 255, 255, 255],
   [255, 255, 255, 255, 255, 255, 255, 255, 255, 255, 255, 255, 255, 255, 255, 255, 255, 255, 255, 255, 255, 255, 255, 255, 255, 255, 255, 255, 255, 255, 255, 255, 255],
   [255, 255, 255, 255, 255, 255, 255, 255, 255, 255, 0, 255, 255, 255, 255, 255, 255, 255, 255, 255, 255, 255, 255, 255, 255, 255, 255, 255, 255, 255, 255, 255, 255],
   [255, 255, 255, 255, 255, 255, 255, 255, 255, 255, 255, 255, 255, 255, 255, 255, 255, 255, 255, 255, 255, 255, 255, 255, 255, 255, 255, 255, 255, 255, 255, 255, 255],
   [255, 255, 255, 255, 255, 255, 255, 255, 255, 255, 0, 255, 255, 255, 255, 255, 255, 255, 255, 255, 255, 255, 255, 255, 255, 255, 255, 255, 255, 255, 255, 255, 255],
   [255, 255, 255, 255, 255, 255, 255, 255, 255, 255, 255, 255, 255, 255, 255, 255, 255, 255, 255, 255, 255, 255, 255, 255, 255, 255, 255, 255, 255, 255, 255, 255, 255],
   [255, 255, 255, 255, 255, 255, 255, 255, 255, 255, 0, 255, 255, 255, 255, 255, 255, 255, 255, 255, 255, 255, 255, 255, 255, 255, 255, 255, 255, 255, 255, 255, 255],
   [255, 255, 255, 255, 255, 255, 255, 255, 255, 255, 255, 255, 255, 255, 255, 255, 255, 255, 255, 255, 255, 255, 255, 255, 255, 255, 255, 255, 255, 255, 255, 255, 255],
   [255, 255, 255, 255, 255, 255, 255, 255, 255, 255, 0, 255, 255, 255, 255, 255, 255, 255, 255, 255, 0, 0, 0, 0, 0, 255, 255, 255, 255, 255, 255, 255, 255],
   [255, 255, 255, 255, 255, 255, 255, 255, 255, 255, 255, 255, 120, 255, 255, 255, 255, 255, 255, 255, 0, 255, 255, 255, 0, 255, 255, 255, 255, 255, 255, 255, 255],
   [255, 255, 255, 255, 0, 0, 0, 0, 0, 0, 0, 255, 120, 255, 255, 255, 255, 255, 255, 255, 0, 255, 0, 255, 0, 255, 255, 255, 255, 255, 255, 255, 255],
   [255, 255, 255, 255, 0, 255, 255, 255, 255, 255, 0, 255, 120, 255, 255, 255, 255, 255, 255, 255, 0, 255, 255, 255, 0, 255, 255, 255, 255, 255, 255, 255, 255],
   [255, 255, 255, 255, 0, 255, 0, 0, 0, 255, 0, 255, 120, 255, 255, 255, 255, 255, 255, 255, 0, 0, 0, 0, 0, 255, 255, 255, 255, 255, 255, 255, 255],
   [255, 255, 255, 255, 0, 255, 0, 0, 0, 255, 0, 255, 120, 255, 255, 255, 255, 255, 255, 255, 255, 255, 255, 255, 255, 255, 255, 255, 255, 255, 255, 255, 255],
   [255, 255, 255, 255, 0, 255, 0, 0, 0, 255, 0, 255, 120, 255, 255, 255, 255, 255, 255, 255, 255, 255, 255, 255, 255, 255, 255, 255, 255, 255, 255, 255, 255],
   [255, 255, 255, 255, 0, 255, 255, 255, 255, 255, 0, 255, 120, 255, 255, 255, 255, 255, 255, 255, 255, 255, 255, 255, 255, 255, 255, 255, 255, 255, 255, 255, 255],
   [255, 255, 255, 255, 0, 0, 0, 0, 0, 0, 0, 255, 120, 255, 255, 255, 255, 255, 255, 255, 255, 255, 255, 255, 255, 255, 255, 255, 255, 255, 255, 255, 255],
   [255, 255, 255, 255, 255, 255, 255, 255, 255, 255, 255, 255, 255, 255, 255, 255, 255, 255, 255, 255, 255, 255, 255, 255, 255, 255, 255, 255, 255, 255, 255, 255, 255],
   [255, 255, 255, 255, 255, 255, 255, 255, 255, 255, 255, 255, 255, 255, 255, 255, 255, 255, 255, 255, 255, 255, 255, 255, 255, 255, 255, 255, 255, 255, 255, 255, 255],
   [255, 255, 255, 255, 255, 255, 255, 255, 255, 255, 255, 255, 255, 255, 255, 255, 255, 255, 255, 255, 255, 255, 255, 255, 255, 255, 255, 255, 255, 255, 255, 255, 255],
   [255, 255, 255, 255, 255, 255, 255, 255, 255, 255, 255, 255, 255, 255, 255, 255, 255, 255, 255, 255, 255, 255, 255, 255, 255, 255, 255, 255, 255, 255, 255, 255, 255]]

/-- The masked Standard(2) symbol above as an image. -/
def v2_masked_image : GrayImage :=
  ⟨33, 33, fun x y => (v2_masked_rows.getD y []).getD x BIT_WHITE⟩

/-! ## serialization/masking.rs: best-mask selection -/

/-- Iterator::min_by_key on a nonempty list: the first element with the
minimal key (ties keep the earlier element). -/
def rust_min_by_key (key : Nat × GrayImage × Nat → Nat) :
    List (Nat × GrayImage × Nat) → Option (Nat × GrayImage × Nat)
  | [] => none
  | x :: xs => some (xs.foldl (fun best c => if key c < key best then c else best) x)

/-- Iterator::max_by_key on a nonempty list: the last element with the
maximal key (ties prefer the later element). -/
def rust_max_by_key (key : Nat × GrayImage × Nat → Nat) :
    List (Nat × GrayImage × Nat) → Option (Nat × GrayImage × Nat)
  | [] => none
  | x :: xs => some (xs.foldl (fun best c => if key best ≤ key c then c else best) x)

/-- apply_best_mask: score all masks (0..4 for Micro with the micro
score maximised, 0..8 for Standard with the penalty minimised) on masked
copies and return the winning index and masked symbol. -/
def apply_best_mask (unmasked : GrayImage) (size : Size) :
    Option (Nat × GrayImage) := do
  let canvas ← create_qr_canvas size
  match size with
  | .Micro _ => do
      let cands ← (List.range 4).mapM fun index => do
        let masked ← apply_mask unmasked index size canvas
        pure (index, masked, compute_mask_score_micro masked)
      let best ← rust_max_by_key (fun d => d.2.2) cands
      pure (best.1, best.2.1)
  | .Standard _ => do
      let cands ← (List.range 8).mapM fun index => do
        let masked ← apply_mask unmasked index size canvas
        pure (index, masked, compute_mask_penalty_score_standard masked)
      let best ← rust_min_by_key (fun d => d.2.2) cands
      pure (best.1, best.2.1)

/-! # Theorems -/

/-! ## Basic lemmas -/

theorem natToBits_length (n v : Nat) : (natToBits n v).length = n := by
  simp [natToBits]

theorem padBytesList_length (n : Nat) : (padBytesList n).length = 8 * n := by
  induction n with
  | zero => simp [padBytesList]
  | succ k ih =>
      unfold padBytesList at *
      rw [List.range_succ, List.map_append, List.flatten_append]
      simp [ih, natToBits_length]
      omega

/-! ## Lemmas about the capacity table -/

set_option maxRecDepth 40000 in
/-- Every table entry has a byte-aligned data-bit capacity except the
Micro(1) and Micro(3) rows, whose capacity is 4 mod 8. -/
theorem table_data_bits_mod :
    ∀ e ∈ SYMBOL_CAPACITY_TABLE,
      (isM13 e.1.1 = true → e.2.data_bits % 8 = 4) ∧
      (isM13 e.1.1 = false → e.2.data_bits % 8 = 0) := by
  decide

theorem lookup_capacity_mem {s : Size} {ecc : ECCLevel} {c : SymbolCapacity}
    (h : lookup_capacity s ecc = some c) :
    ((s, ecc), c) ∈ SYMBOL_CAPACITY_TABLE := by
  unfold lookup_capacity at h
  obtain ⟨e, he, hec⟩ := Option.map_eq_some'.mp h
  have hmem := List.mem_of_find?_eq_some he
  have hp := List.find?_some he
  simp only [decide_eq_true_eq] at hp
  obtain ⟨h1, h2⟩ := hp
  obtain ⟨⟨es, ee⟩, ec⟩ := e
  simp only at h1 h2 hec
  subst h1; subst h2; subst hec
  exact hmem

/-! ## C1: illegal characters in Numeric mode -/

/-- C1: refuted (code bug).  The claim states that a payload byte outside
the Numeric alphabet makes the segment encoder fail with
IllegalCharacter.  The in-source assertion `l >= 0x30 || l <= 0x39` is a
tautology, so the byte 0x3A (a colon, not a digit) is accepted: it is
mapped to the digit value 10 and `encode_data_segment` completes,
emitting the mode indicator, the count 1, and the 4-bit code 1010. -/
theorem numeric_mode_accepts_nondigit_byte :
    ¬ (0x30 ≤ 0x3A ∧ 0x3A ≤ 0x39) ∧
    encode_data_segment [0x3A] Encoding.Numeric (Size.Standard 1) =
      some (natToBits 4 0b0001 ++ natToBits 10 1 ++ natToBits 4 10) := by
  decide

/-! ## C6: Kanji pair offsets -/

/-- C6: confirmed.  A 2-byte Kanji pair read as the 16-bit number n is
reduced by 0x8140 on [0x8140, 0x9FFC] and by 0xC140 (not 0xE040) on
[0xE040, 0xEBBF], and the 13-bit code (m >> 8) * 0xC0 + (m & 0xFF) of the
difference m is emitted. -/
theorem encode_kanji_pair_offsets (b1 b2 : Nat) (_hb1 : b1 < 256) (_hb2 : b2 < 256) :
    (0x8140 ≤ b1 * 0x100 + b2 → b1 * 0x100 + b2 ≤ 0x9FFC →
      encode_kanji_data [b1, b2] = some (natToBits 13
        ((b1 * 0x100 + b2 - 0x8140) / 0x100 * 0xC0 +
         (b1 * 0x100 + b2 - 0x8140) % 0x100))) ∧
    (0xE040 ≤ b1 * 0x100 + b2 → b1 * 0x100 + b2 ≤ 0xEBBF →
      encode_kanji_data [b1, b2] = some (natToBits 13
        ((b1 * 0x100 + b2 - 0xC140) / 0x100 * 0xC0 +
         (b1 * 0x100 + b2 - 0xC140) % 0x100))) := by
  constructor
  · intro hlo hhi
    have hlen : ([b1, b2] : List Nat).length % 2 = 0 := by simp
    simp only [encode_kanji_data, hlen, if_pos, encode_kanji_loop, kanji_number]
    rw [if_pos ⟨hlo, hhi⟩]
    have hfit : (b1 * 0x100 + b2 - 0x8140) / 0x100 * 0xC0 +
        (b1 * 0x100 + b2 - 0x8140) % 0x100 < 8192 := by omega
    simp [writeBits, hfit]
  · intro hlo hhi
    have hlen : ([b1, b2] : List Nat).length % 2 = 0 := by simp
    simp only [encode_kanji_data, hlen, if_pos, encode_kanji_loop, kanji_number]
    rw [if_neg (by omega), if_pos ⟨hlo, hhi⟩]
    have hfit : (b1 * 0x100 + b2 - 0xC140) / 0x100 * 0xC0 +
        (b1 * 0x100 + b2 - 0xC140) % 0x100 < 8192 := by omega
    simp [writeBits, hfit]

/-- Witness for C6 at the two lower range boundaries 0x935F and 0xE040
(the pairs of the in-source kanji unit test). -/
theorem encode_kanji_pair_offsets_witness :
    encode_kanji_data [0x93, 0x5F] = some (natToBits 13
      ((0x93 * 0x100 + 0x5F - 0x8140) / 0x100 * 0xC0 +
       (0x93 * 0x100 + 0x5F - 0x8140) % 0x100)) ∧
    encode_kanji_data [0xE0, 0x40] = some (natToBits 13
      ((0xE0 * 0x100 + 0x40 - 0xC140) / 0x100 * 0xC0 +
       (0xE0 * 0x100 + 0x40 - 0xC140) % 0x100)) :=
  ⟨(encode_kanji_pair_offsets 0x93 0x5F (by decide) (by decide)).1 (by decide) (by decide),
   (encode_kanji_pair_offsets 0xE0 0x40 (by decide) (by decide)).2 (by decide) (by decide)⟩

/-! ## C10: out-of-range Kanji pairs are silently dropped -/

theorem kanji_pairs_length : ∀ (input : List Nat),
    (kanji_pairs input).length = input.length / 2
  | [] => by simp [kanji_pairs]
  | [_] => by simp [kanji_pairs]
  | b1 :: b2 :: rest => by
      have ih := kanji_pairs_length rest
      simp only [kanji_pairs, List.length_cons]
      omega

theorem encode_kanji_loop_length : ∀ (input : List Nat),
    ∃ out, encode_kanji_loop input = some out ∧
      out.length =
        13 * ((kanji_pairs input).countP fun p => decide (kanji_pair_in_range p))
  | [] => ⟨[], by simp [encode_kanji_loop, kanji_pairs]⟩
  | [_] => ⟨[], by simp [encode_kanji_loop, kanji_pairs]⟩
  | b1 :: b2 :: rest => by
      obtain ⟨out, hout, hlen⟩ := encode_kanji_loop_length rest
      have hcount : ((kanji_pairs (b1 :: b2 :: rest)).countP
          fun p => decide (kanji_pair_in_range p)) =
          ((kanji_pairs rest).countP fun p => decide (kanji_pair_in_range p)) +
            (if kanji_pair_in_range (b1, b2) then 1 else 0) := by
        simp [kanji_pairs, List.countP_cons]
      by_cases h1 : 0x8140 ≤ kanji_number b1 b2 ∧ kanji_number b1 b2 ≤ 0x9FFC
      · have hin : kanji_pair_in_range (b1, b2) := Or.inl h1
        have hfit : (kanji_number b1 b2 - 0x8140) / 0x100 * 0xC0 +
            (kanji_number b1 b2 - 0x8140) % 0x100 < 2 ^ 13 := by
          unfold kanji_number at *; omega
        refine ⟨natToBits 13 ((kanji_number b1 b2 - 0x8140) / 0x100 * 0xC0 +
            (kanji_number b1 b2 - 0x8140) % 0x100) ++ out, ?_, ?_⟩
        · simp only [encode_kanji_loop, if_pos h1, writeBits, hfit, if_pos,
            Option.some_bind, hout]
          rfl
        · simp [hcount, hin, hlen, natToBits_length]
          ring
      · by_cases h2 : 0xE040 ≤ kanji_number b1 b2 ∧ kanji_number b1 b2 ≤ 0xEBBF
        · have hin : kanji_pair_in_range (b1, b2) := Or.inr h2
          have hfit : (kanji_number b1 b2 - 0xC140) / 0x100 * 0xC0 +
              (kanji_number b1 b2 - 0xC140) % 0x100 < 2 ^ 13 := by
            unfold kanji_number at *; omega
          refine ⟨natToBits 13 ((kanji_number b1 b2 - 0xC140) / 0x100 * 0xC0 +
              (kanji_number b1 b2 - 0xC140) % 0x100) ++ out, ?_, ?_⟩
          · simp only [encode_kanji_loop, if_neg h1, if_pos h2, writeBits, hfit,
              if_pos, Option.some_bind, hout]
            rfl
          · simp [hcount, hin, hlen, natToBits_length]
            ring
        · have hnotin : ¬ kanji_pair_in_range (b1, b2) := by
            intro hc; rcases hc with hc | hc
            · exact h1 hc
            · exact h2 hc
          refine ⟨out, ?_, ?_⟩
          · simp only [encode_kanji_loop, if_neg h1, if_neg h2, hout]
          · simp [hcount, hnotin, hlen]

/-- C10: confirmed.  If the byte count is even and some 2-byte pair lies
outside both Shift-JIS ranges, encode_data_segment completes without any
error, but the Kanji packer emits fewer than 13 bits per counted
character, because the out-of-range pair contributes nothing while the
character-count indicator still records length/2 characters. -/
theorem kanji_out_of_range_pair_dropped (input : List Nat) (p : Nat × Nat) (v : Nat)
    (heven : input.length % 2 = 0) (hmem : p ∈ kanji_pairs input)
    (hout : ¬ kanji_pair_in_range p) (hfew : input.length / 2 < 256) :
    ∃ dataBits segBits,
      encode_kanji_data input = some dataBits ∧
      dataBits.length < 13 * (input.length / 2) ∧
      encode_data_segment input Encoding.Kanji (Size.Standard v) = some segBits := by
  obtain ⟨out, hloop, hlen⟩ := encode_kanji_loop_length input
  have hdata : encode_kanji_data input = some out := by
    simp [encode_kanji_data, heven, hloop]
  have hcountlt : ((kanji_pairs input).countP fun q => decide (kanji_pair_in_range q)) <
      (kanji_pairs input).length := by
    have hle := List.countP_le_length
      (p := fun q => decide (kanji_pair_in_range q)) (l := kanji_pairs input)
    rcases Nat.lt_or_ge ((kanji_pairs input).countP fun q => decide (kanji_pair_in_range q))
      (kanji_pairs input).length with h | h
    · exact h
    · exfalso
      have heq : ((kanji_pairs input).countP fun q => decide (kanji_pair_in_range q)) =
          (kanji_pairs input).length := le_antisymm hle h
      have hall := List.countP_eq_length.mp heq
      have := hall p hmem
      simp only [decide_eq_true_eq] at this
      exact hout this
  have hlt : out.length < 13 * (input.length / 2) := by
    rw [hlen, ← kanji_pairs_length input]
    omega
  have hccbits : 8 ≤ num_char_count_bits Encoding.Kanji (Size.Standard v) := by
    simp only [num_char_count_bits]
    split_ifs <;> omega
  have hcc : ∃ cc, write_charcount_indicator (input.length / 2)
      (Size.Standard v) Encoding.Kanji = some cc := by
    unfold write_charcount_indicator writeBits
    rw [if_pos]
    · exact ⟨_, rfl⟩
    · calc input.length / 2 < 256 := hfew
        _ = 2 ^ 8 := by norm_num
        _ ≤ 2 ^ num_char_count_bits Encoding.Kanji (Size.Standard v) :=
          Nat.pow_le_pow_right (by norm_num) hccbits
  obtain ⟨cc, hcc⟩ := hcc
  have hmode : write_mode_indicator (Size.Standard v) Encoding.Kanji =
      some (natToBits 4 8) := by
    simp [write_mode_indicator, writeBits]
  refine ⟨out, natToBits 4 8 ++ (cc ++ out), hdata, hlt, ?_⟩
  simp only [encode_data_segment, hmode, Option.some_bind, hcc, hdata]
  rfl

/-- Witness for C10: the pair (0, 0) is out of range; a two-byte payload
of zeros encodes to an empty Kanji data part while the count indicator
records one character. -/
theorem kanji_out_of_range_pair_dropped_witness :
    ∃ dataBits segBits,
      encode_kanji_data [0, 0] = some dataBits ∧
      dataBits.length < 13 * (([0, 0] : List Nat).length / 2) ∧
      encode_data_segment [0, 0] Encoding.Kanji (Size.Standard 1) = some segBits :=
  kanji_out_of_range_pair_dropped [0, 0] (0, 0) 1 (by decide) (by decide)
    (by decide) (by decide)

/-! ## C7: illegal configurations -/

/-- C7: refuted (code bug).  The claim states that an illegal
version/mode combination such as Byte mode with Micro(1) fails with
UnsupportedConfiguration before any bits are emitted.  The Micro(1) arm
of write_mode_indicator is empty and validates nothing, so Byte mode on
Micro(1) emits a 2-bit character count and 8 data bits, and
finalize_bitstream then completes normally, producing a 20-bit data
stream for the (Micro(1), L) capacity. -/
theorem micro1_byte_mode_completes :
    encode_data_segment [0x41] Encoding.Bytes (Size.Micro 1) =
      some (natToBits 2 1 ++ natToBits 8 0x41) ∧
    ∃ out, finalize_recorded (natToBits 2 1 ++ natToBits 8 0x41)
        (Size.Micro 1) ECCLevel.L = some out ∧ out.length = 20 := by
  constructor
  · decide
  · refine ⟨_, rfl, ?_⟩
    decide

/-! ## C2: finalize pads, fills, and hits capacity exactly -/

theorem finalize_stage1_length (stream : List Bool) (cap term : Nat) :
    (finalize_stage1 stream cap term).length =
      stream.length + min (cap - stream.length) term := by
  simp [finalize_stage1]

/-- Behaviour of stages 2 to 4 of finalize_bitstream on any prefix whose
length fits the capacity, for a capacity satisfying the table invariant
(a multiple of 8, except 4 mod 8 for Micro(1)/Micro(3)). -/
theorem finalize_tail_spec (cap : Nat) (m13 : Bool) (s1 : List Bool)
    (hle : s1.length ≤ cap)
    (hc4 : m13 = true → cap % 8 = 4) (hc0 : m13 = false → cap % 8 = 0) :
    ∃ a t, a < 8 ∧ (m13 = false → t = 0) ∧ t ≤ 4 ∧
      finalize_stage2 cap m13 s1 = s1 ++ List.replicate a false ∧
      s1.length + a ≤ cap ∧
      (finalize_stage3 cap (s1 ++ List.replicate a false)).length ≤ cap ∧
      finalize_stage4 cap m13 (finalize_stage3 cap (s1 ++ List.replicate a false)) =
        some (finalize_stage3 cap (s1 ++ List.replicate a false) ++
          List.replicate t false) ∧
      (finalize_stage3 cap (s1 ++ List.replicate a false)).length + t = cap := by
  have hst3len : ∀ s2 : List Bool,
      (finalize_stage3 cap s2).length = s2.length + 8 * ((cap - s2.length) / 8) := by
    intro s2
    simp [finalize_stage3, padBytesList_length]
  by_cases h8 : s1.length % 8 > 0
  · by_cases hsp : m13 = true ∧ s1.length + 4 > cap
    · -- already inside the final half codeword: fill it and stop
      have hs2 : finalize_stage2 cap m13 s1 =
          s1 ++ List.replicate (cap - s1.length) false := by
        unfold finalize_stage2
        rw [if_pos h8, if_pos hsp]
      have hlen2 : (s1 ++ List.replicate (cap - s1.length) false).length = cap := by
        simp; omega
      have hlen3 : (finalize_stage3 cap (s1 ++
          List.replicate (cap - s1.length) false)).length = cap := by
        rw [hst3len, hlen2]; omega
      refine ⟨cap - s1.length, 0, by omega, fun _ => rfl, by omega, hs2, by omega,
        by omega, ?_, by simpa using hlen3⟩
      unfold finalize_stage4
      rw [if_neg (by omega), if_pos (by constructor <;> omega)]
      simp
    · -- plain zero padding to the next byte boundary
      have hs2 : finalize_stage2 cap m13 s1 =
          s1 ++ List.replicate (8 - s1.length % 8) false := by
        unfold finalize_stage2
        rw [if_pos h8, if_neg hsp]
      cases hm : m13 with
      | false =>
          have hcap0 : cap % 8 = 0 := hc0 hm
          have hle2 : s1.length + (8 - s1.length % 8) ≤ cap := by omega
          have hlen2 : (s1 ++ List.replicate (8 - s1.length % 8) false).length =
              s1.length + (8 - s1.length % 8) := by simp
          have hlen3 : (finalize_stage3 cap (s1 ++
              List.replicate (8 - s1.length % 8) false)).length = cap := by
            rw [hst3len, hlen2]; omega
          refine ⟨8 - s1.length % 8, 0, by omega, fun _ => rfl, by omega,
            hm ▸ hs2, hle2, by omega, ?_, by simpa using hlen3⟩
          unfold finalize_stage4
          rw [if_neg (by simp [hm]), if_pos (by constructor <;> omega)]
          simp
      | true =>
          have hcap4 : cap % 8 = 4 := hc4 hm
          have hnsp : s1.length + 4 ≤ cap := by
            rcases Nat.lt_or_ge cap (s1.length + 4) with h | h
            · exact absurd ⟨hm, h⟩ hsp
            · omega
          have hle2 : s1.length + (8 - s1.length % 8) ≤ cap := by omega
          have hlen2 : (s1 ++ List.replicate (8 - s1.length % 8) false).length =
              s1.length + (8 - s1.length % 8) := by simp
          have hlen3 : (finalize_stage3 cap (s1 ++
              List.replicate (8 - s1.length % 8) false)).length = cap - 4 := by
            rw [hst3len, hlen2]; omega
          refine ⟨8 - s1.length % 8, 4, by omega, by simp [hm], by omega,
            hm ▸ hs2, hle2, by omega, ?_, by omega⟩
          unfold finalize_stage4
          rw [if_pos (by refine ⟨rfl, ?_⟩; omega), if_pos (by omega),
            if_pos (by simp [hlen3]; omega)]
  · -- already byte aligned: stage 2 is the identity
    have hnil : s1 ++ List.replicate 0 false = s1 := by simp
    have hs2 : finalize_stage2 cap m13 s1 = s1 ++ List.replicate 0 false := by
      unfold finalize_stage2
      rw [if_neg h8, hnil]
    cases hm : m13 with
    | false =>
        have hcap0 : cap % 8 = 0 := hc0 hm
        have hlen3 : (finalize_stage3 cap s1).length = cap := by
          rw [hst3len]; omega
        refine ⟨0, 0, by omega, fun _ => rfl, by omega, hm ▸ hs2, by omega,
          ?_, ?_, ?_⟩
        · rw [hnil]; omega
        · rw [hnil]
          unfold finalize_stage4
          rw [if_neg (by simp [hm]), if_pos (by constructor <;> omega)]
          simp
        · rw [hnil]; omega
    | true =>
        have hcap4 : cap % 8 = 4 := hc4 hm
        have hs1m : s1.length ≤ cap - 4 := by omega
        have hlen3 : (finalize_stage3 cap s1).length = cap - 4 := by
          rw [hst3len]; omega
        refine ⟨0, 4, by omega, by simp [hm], by omega, hm ▸ hs2, by omega,
          ?_, ?_, ?_⟩
        · rw [hnil]; omega
        · rw [hnil]
          unfold finalize_stage4
          rw [if_pos (by refine ⟨rfl, ?_⟩; omega), if_pos (by omega),
            if_pos (by simp [hlen3]; omega)]
        · rw [hnil]; omega



/-- C2: confirmed.  For any recorded stream whose bit count fits the
(size, ECC) data-bit capacity, finalize appends min(cap - w, terminator)
zero bits (terminator length 2k+1 for Micro(k), 4 for Standard), then
zero bits up to the byte boundary, then the alternating pad codewords
0xEC, 0x11 starting with 0xEC, then the trailing zero half codeword of
Micro(1)/Micro(3), and the recorded bit count ends exactly at cap. -/
theorem finalize_fills_capacity_exactly
    (size : Size) (ecl : ECCLevel) (c : SymbolCapacity) (stream : List Bool)
    (hc : lookup_capacity size ecl = some c) (hw : stream.length ≤ c.data_bits) :
    ∃ (a p t : Nat) (out : List Bool),
      finalize_recorded stream size ecl = some out ∧
      out = stream ++
        List.replicate (min (c.data_bits - stream.length) (terminator_length size))
          false ++
        List.replicate a false ++ padBytesList p ++ List.replicate t false ∧
      out.length = c.data_bits ∧
      a < 8 ∧ (isM13 size = false → t = 0) ∧ t ≤ 4 ∧
      (∀ k, size = Size.Micro k → terminator_length size = 2 * k + 1) ∧
      (∀ v, size = Size.Standard v → terminator_length size = 4) := by
  have hmod := table_data_bits_mod _ (lookup_capacity_mem hc)
  simp only at hmod
  obtain ⟨hm4, hm0⟩ := hmod
  have hs1le : (finalize_stage1 stream c.data_bits
      (terminator_length size)).length ≤ c.data_bits := by
    rw [finalize_stage1_length]
    have := Nat.min_le_left (c.data_bits - stream.length) (terminator_length size)
    omega
  obtain ⟨a, t, ha8, ht0, ht4, hs2, hle2, hle3, hs4, hcap⟩ :=
    finalize_tail_spec c.data_bits (isM13 size)
      (finalize_stage1 stream c.data_bits (terminator_length size)) hs1le hm4 hm0
  refine ⟨a, (c.data_bits -
      ((finalize_stage1 stream c.data_bits (terminator_length size)).length + a)) / 8, t,
    finalize_stage3 c.data_bits
      (finalize_stage1 stream c.data_bits (terminator_length size) ++
        List.replicate a false) ++ List.replicate t false, ?_, ?_, ?_, ha8, ht0, ht4,
    ?_, ?_⟩
  · unfold finalize_recorded
    rw [hc]
    dsimp only
    rw [if_pos hw, hs2]
    rw [if_pos (by simp only [List.length_append, List.length_replicate]; omega)]
    rw [if_pos hle3]
    exact hs4
  · simp only [finalize_stage3, List.length_append, List.length_replicate,
      finalize_stage1, natToBits_length]
  · simp only [List.length_append, List.length_replicate]
    omega
  · rintro k rfl
    simp only [terminator_length]
    omega
  · rintro v rfl
    simp only [terminator_length]



/-- Witness for C2: the empty stream on a (Standard 1, L) symbol. -/
theorem finalize_fills_capacity_exactly_witness :
    ∃ (a p t : Nat) (out : List Bool),
      finalize_recorded [] (Size.Standard 1) ECCLevel.L = some out ∧
      out = [] ++
        List.replicate (min ((capacity 152 41 25 17 10 1 26 19 0 0 0).data_bits -
            ([] : List Bool).length) (terminator_length (Size.Standard 1))) false ++
        List.replicate a false ++ padBytesList p ++ List.replicate t false ∧
      out.length = (capacity 152 41 25 17 10 1 26 19 0 0 0).data_bits ∧
      a < 8 ∧ (isM13 (Size.Standard 1) = false → t = 0) ∧ t ≤ 4 ∧
      (∀ k, Size.Standard 1 = Size.Micro k →
        terminator_length (Size.Standard 1) = 2 * k + 1) ∧
      (∀ v, Size.Standard 1 = Size.Standard v →
        terminator_length (Size.Standard 1) = 4) :=
  finalize_fills_capacity_exactly (Size.Standard 1) ECCLevel.L
    (capacity 152 41 25 17 10 1 26 19 0 0 0) [] (by decide) (by decide)


/-! ## C9: format information bits -/

/-- C9: counterexample to the claim as stated.  For Micro symbols the
mask index occupies the low two bits of the 5-bit format input (the
3-bit symbol number is shifted left by two), not the low three bits:
for (Micro 2, L, mask 0) the code uses table index 4 = 1 * 4 + 0,
whereas BCH-encoding the claimed input 1 * 8 + 0 gives a different
format word. -/
theorem micro_format_mask_not_in_low_three_bits :
    microSymbolNumber 2 ECCLevel.L = some 1 ∧
    compute_format_info_bits (Size.Micro 2) ECCLevel.L 0 =
      some (bch15_5 (1 * 4 + 0) ^^^ 0x4445) ∧
    compute_format_info_bits (Size.Micro 2) ECCLevel.L 0 ≠
      some (bch15_5 (1 * 8 + 0) ^^^ 0x4445) := by
  decide

/-- C9 amended: the 15 format bits equal the BCH(15,5) encoding of the
5-bit input XORed with 0x5412 (Standard) or 0x4445 (Micro), where the
input is the 2-bit ECC code (L=01, M=00, Q=11, H=10) followed by the
3-bit mask index for Standard, and the 3-bit symbol number of table C.1
followed by the 2-bit mask index for Micro. -/
theorem format_info_is_bch_of_ecc_and_mask (ecl : ECCLevel) (v i mask : Nat) :
    (mask < 8 →
      compute_format_info_bits (Size.Standard v) ecl mask =
        some (bch15_5 (stdEccCode ecl * 8 + mask) ^^^ 0x5412)) ∧
    (∀ n, mask < 4 → microSymbolNumber i ecl = some n →
      compute_format_info_bits (Size.Micro i) ecl mask =
        some (bch15_5 (n * 4 + mask) ^^^ 0x4445)) := by
  constructor
  · intro hm
    cases ecl <;> (simp only [compute_format_info_bits] ; interval_cases mask <;> decide)
  · intro n hm hn
    unfold microSymbolNumber at hn
    split_ifs at hn with h1 h2 h3 h4 h5 h6 h7 h8
    · rcases h1 with ⟨rfl, rfl⟩
      injection hn with hn; subst hn
      interval_cases mask <;> decide
    · rcases h2 with ⟨rfl, rfl⟩
      injection hn with hn; subst hn
      interval_cases mask <;> decide
    · rcases h3 with ⟨rfl, rfl⟩
      injection hn with hn; subst hn
      interval_cases mask <;> decide
    · rcases h4 with ⟨rfl, rfl⟩
      injection hn with hn; subst hn
      interval_cases mask <;> decide
    · rcases h5 with ⟨rfl, rfl⟩
      injection hn with hn; subst hn
      interval_cases mask <;> decide
    · rcases h6 with ⟨rfl, rfl⟩
      injection hn with hn; subst hn
      interval_cases mask <;> decide
    · rcases h7 with ⟨rfl, rfl⟩
      injection hn with hn; subst hn
      interval_cases mask <;> decide
    · rcases h8 with ⟨rfl, rfl⟩
      injection hn with hn; subst hn
      interval_cases mask <;> decide

/-- Witness for the amended C9 at (Standard, L, mask 5) and
(Micro 4, Q, mask 3). -/
theorem format_info_is_bch_witness :
    compute_format_info_bits (Size.Standard 1) ECCLevel.L 5 =
      some (bch15_5 (stdEccCode ECCLevel.L * 8 + 5) ^^^ 0x5412) ∧
    compute_format_info_bits (Size.Micro 4) ECCLevel.Q 3 =
      some (bch15_5 (7 * 4 + 3) ^^^ 0x4445) :=
  ⟨(format_info_is_bch_of_ecc_and_mask ECCLevel.L 1 1 5).1 (by decide),
   (format_info_is_bch_of_ecc_and_mask ECCLevel.Q 1 4 3).2 7 (by decide) (by decide)⟩


/-! ## C5: the N3 feature of the standard penalty -/

theorem decide_eq_bool {P : Prop} [Decidable P] {b : Bool} (h : P ↔ b = true) :
    decide P = b := by
  cases b
  · simp only [Bool.false_eq_true, iff_false] at h
    simp [h]
  · simp [h]

theorem countP_congr_mem {α : Type} {l : List α} {p q : α → Bool}
    (h : ∀ a ∈ l, p a = q a) : l.countP p = l.countP q := by
  induction l with
  | nil => rfl
  | cons a l ih =>
      rw [List.countP_cons, List.countP_cons, h a (by simp),
        ih fun b hb => h b (by simp [hb])]

theorem sum_map_congr_mem {α : Type} {l : List α} {f g : α → Nat}
    (h : ∀ a ∈ l, f a = g a) : (l.map f).sum = (l.map g).sum := by
  induction l with
  | nil => rfl
  | cons a l ih =>
      simp only [List.map_cons, List.sum_cons, h a (by simp),
        ih fun b hb => h b (by simp [hb])]

theorem mem_range'_iff {s n m : Nat} : m ∈ List.range' s n ↔ s ≤ m ∧ m < s + n := by
  rw [List.mem_range']
  constructor
  · rintro ⟨i, hi, rfl⟩; omega
  · rintro ⟨h1, h2⟩; exact ⟨m - s, by omega, by omega⟩

theorem range_split_three (n a b : Nat) (h : n = a + b + a) :
    List.range n = (List.range' 0 a ++ List.range' a b) ++ List.range' (a + b) a := by
  have e1 := List.range'_append 0 a b 1
  have e2 := List.range'_append 0 (b + a) a 1
  simp only [Nat.one_mul, Nat.zero_add] at e1 e2
  symm
  rw [e1, show a + b = b + a from by omega, e2,
    show a + (b + a) = n from by omega]
  exact (List.range_eq_range' n).symm

theorem range'_seven (x : Nat) :
    List.range' x 7 = [x, x + 1, x + 2, x + 3, x + 4, x + 5, x + 6] := by
  simp [List.range']

/-- On a line of length L with a light border four deep on both ends,
the per-claim count of qualifying N3 occurrences over all in-bounds
positions equals the count of the source scan over 4..(L - 10). -/
theorem n3_line_count_eq (g : Nat → Nat) (L : Nat) (hL : 29 ≤ L)
    (hq : ∀ t, t < L → (t < 4 ∨ L ≤ t + 4) → g t = BIT_WHITE) :
    (List.range (L - 6)).countP (fun x => decide (amended_line_qualifies g L x)) =
    (List.range' 4 (L - 14)).countP
      (fun x => line_hit g x && line_window g L x) := by
  rw [range_split_three (L - 6) 4 (L - 14) (by omega), List.countP_append,
    List.countP_append]
  have hz1 : (List.range' 0 4).countP
      (fun x => decide (amended_line_qualifies g L x)) = 0 := by
    rw [List.countP_eq_zero]
    intro x hx
    have hx4 : x < 4 := by
      have := mem_range'_iff.mp hx; omega
    simp only [decide_eq_true_eq]
    intro hP
    have h0 := hP.1.1
    have hw := hq x (by omega) (Or.inl hx4)
    rw [hw] at h0
    simp [BIT_WHITE, BIT_BLACK] at h0
  have hz3 : (List.range' (4 + (L - 14)) 4).countP
      (fun x => decide (amended_line_qualifies g L x)) = 0 := by
    rw [List.countP_eq_zero]
    intro x hx
    have hxr := mem_range'_iff.mp hx
    simp only [decide_eq_true_eq]
    intro hP
    have h0 := hP.1.2.2.2.2.2.2
    have hw := hq (x + 6) (by omega) (Or.inr (by omega))
    rw [hw] at h0
    simp [BIT_WHITE, BIT_BLACK] at h0
  rw [hz1, hz3]
  rw [Nat.zero_add, Nat.add_zero]
  apply countP_congr_mem
  intro x hx
  have hxr := mem_range'_iff.mp hx
  apply decide_eq_bool
  rw [Bool.and_eq_true]
  have hhit : line_hit g x = true ↔
      (g x = BIT_BLACK ∧ g (x + 1) = BIT_WHITE ∧ g (x + 2) = BIT_BLACK ∧
       g (x + 3) = BIT_BLACK ∧ g (x + 4) = BIT_BLACK ∧ g (x + 5) = BIT_WHITE ∧
       g (x + 6) = BIT_BLACK) := by
    unfold line_hit
    rw [decide_eq_true_eq, range'_seven]
    simp [N3_PATTERN, BIT_BLACK, BIT_WHITE]
  have hwinL : ((!(List.range' (x - 4) 4).any fun t =>
      decide (t < L ∧ g t = BIT_BLACK)) = true) ↔
      (∀ t, t < L → x ≤ t + 4 → t < x → g t ≠ BIT_BLACK) := by
    rw [Bool.not_eq_true', List.any_eq_false]
    constructor
    · intro hcode t htL hge hlt h0
      have hmem : t ∈ List.range' (x - 4) 4 := mem_range'_iff.mpr ⟨by omega, by omega⟩
      have := hcode t hmem
      simp only [decide_eq_true_eq] at this
      exact this ⟨htL, h0⟩
    · intro hspec t hmem
      have htr := mem_range'_iff.mp hmem
      simp only [decide_eq_true_eq]
      rintro ⟨htL, h0⟩
      exact hspec t htL (by omega) (by omega) h0
  have hwinR : ((!(List.range' (x + 7) 4).any fun t =>
      decide (t < L ∧ g t = BIT_BLACK)) = true) ↔
      (∀ t, t < L → x + 7 ≤ t → t < x + 11 → g t ≠ BIT_BLACK) := by
    rw [Bool.not_eq_true', List.any_eq_false]
    constructor
    · intro hcode t htL hge hlt h0
      have hmem : t ∈ List.range' (x + 7) 4 := mem_range'_iff.mpr ⟨by omega, by omega⟩
      have := hcode t hmem
      simp only [decide_eq_true_eq] at this
      exact this ⟨htL, h0⟩
    · intro hspec t hmem
      have htr := mem_range'_iff.mp hmem
      simp only [decide_eq_true_eq]
      rintro ⟨htL, h0⟩
      exact hspec t htL (by omega) (by omega) h0
  unfold amended_line_qualifies line_window
  rw [Bool.or_eq_true, hwinL, hwinR, hhit]


theorem n3_rows_count_eq_spec (img : GrayImage)
    (h29 : 29 ≤ img.width) (hsq : img.width = img.height)
    (hq : ∀ x, x < img.width → ∀ y, y < img.height →
      (x < 4 ∨ img.width ≤ x + 4 ∨ y < 4 ∨ img.height ≤ y + 4) →
      getPix img x y = BIT_WHITE) :
    amended_n3_rows img = n3_rows_count img := by
  unfold amended_n3_rows n3_rows_count
  rw [range_split_three img.height 4 (img.height - 8) (by omega)]
  rw [List.map_append, List.map_append, List.sum_append, List.sum_append]
  have hz1 : ((List.range' 0 4).map fun y =>
      (List.range (img.width - 6)).countP fun x =>
        decide (amended_line_qualifies (rowAt img y) img.width x)).sum = 0 := by
    apply List.sum_eq_zero
    intro c hc
    rw [List.mem_map] at hc
    obtain ⟨y, hy, rfl⟩ := hc
    have hy4 : y < 4 := by have := mem_range'_iff.mp hy; omega
    rw [List.countP_eq_zero]
    intro x hx
    have hxw := List.mem_range.mp hx
    simp only [decide_eq_true_eq]
    intro hP
    have h0 : getPix img x y = BIT_BLACK := hP.1.1
    have hw := hq x (by omega) y (by omega) (Or.inr (Or.inr (Or.inl hy4)))
    rw [hw] at h0
    simp [BIT_WHITE, BIT_BLACK] at h0
  have hz3 : ((List.range' (4 + (img.height - 8)) 4).map fun y =>
      (List.range (img.width - 6)).countP fun x =>
        decide (amended_line_qualifies (rowAt img y) img.width x)).sum = 0 := by
    apply List.sum_eq_zero
    intro c hc
    rw [List.mem_map] at hc
    obtain ⟨y, hy, rfl⟩ := hc
    have hyr := mem_range'_iff.mp hy
    rw [List.countP_eq_zero]
    intro x hx
    have hxw := List.mem_range.mp hx
    simp only [decide_eq_true_eq]
    intro hP
    have h0 : getPix img x y = BIT_BLACK := hP.1.1
    have hw := hq x (by omega) y (by omega) (Or.inr (Or.inr (Or.inr (by omega))))
    rw [hw] at h0
    simp [BIT_WHITE, BIT_BLACK] at h0
  rw [hz1, hz3, Nat.zero_add, Nat.add_zero]
  apply sum_map_congr_mem
  intro y hy
  have hyr := mem_range'_iff.mp hy
  apply n3_line_count_eq (rowAt img y) img.width h29
  intro t htL hcond
  exact hq t htL y (by omega)
    (by rcases hcond with h | h
        · exact Or.inl h
        · exact Or.inr (Or.inl h))

theorem n3_cols_count_eq_spec (img : GrayImage)
    (h29 : 29 ≤ img.width) (hsq : img.width = img.height)
    (hq : ∀ x, x < img.width → ∀ y, y < img.height →
      (x < 4 ∨ img.width ≤ x + 4 ∨ y < 4 ∨ img.height ≤ y + 4) →
      getPix img x y = BIT_WHITE) :
    amended_n3_cols img = n3_cols_count img := by
  unfold amended_n3_cols n3_cols_count
  rw [range_split_three img.width 4 (img.width - 8) (by omega)]
  rw [List.map_append, List.map_append, List.sum_append, List.sum_append]
  have hz1 : ((List.range' 0 4).map fun x =>
      (List.range (img.height - 6)).countP fun y =>
        decide (amended_line_qualifies (colAt img x) img.height y)).sum = 0 := by
    apply List.sum_eq_zero
    intro c hc
    rw [List.mem_map] at hc
    obtain ⟨x, hx, rfl⟩ := hc
    have hx4 : x < 4 := by have := mem_range'_iff.mp hx; omega
    rw [List.countP_eq_zero]
    intro y hy
    have hyw := List.mem_range.mp hy
    simp only [decide_eq_true_eq]
    intro hP
    have h0 : getPix img x y = BIT_BLACK := hP.1.1
    have hw := hq x (by omega) y (by omega) (Or.inl hx4)
    rw [hw] at h0
    simp [BIT_WHITE, BIT_BLACK] at h0
  have hz3 : ((List.range' (4 + (img.width - 8)) 4).map fun x =>
      (List.range (img.height - 6)).countP fun y =>
        decide (amended_line_qualifies (colAt img x) img.height y)).sum = 0 := by
    apply List.sum_eq_zero
    intro c hc
    rw [List.mem_map] at hc
    obtain ⟨x, hx, rfl⟩ := hc
    have hxr := mem_range'_iff.mp hx
    rw [List.countP_eq_zero]
    intro y hy
    have hyw := List.mem_range.mp hy
    simp only [decide_eq_true_eq]
    intro hP
    have h0 : getPix img x y = BIT_BLACK := hP.1.1
    have hw := hq x (by omega) y (by omega) (Or.inr (Or.inl (by omega)))
    rw [hw] at h0
    simp [BIT_WHITE, BIT_BLACK] at h0
  rw [hz1, hz3, Nat.zero_add, Nat.add_zero]
  apply sum_map_congr_mem
  intro x hx
  have hxr := mem_range'_iff.mp hx
  rw [hsq]
  apply n3_line_count_eq (colAt img x) img.height (by omega)
  intro t htL hcond
  exact hq x (by omega) t htL
    (by rcases hcond with h | h
        · exact Or.inr (Or.inr (Or.inl h))
        · exact Or.inr (Or.inr (Or.inr h)))

set_option maxRecDepth 100000 in
set_option maxHeartbeats 4000000 in
/-- C5: counterexample to the claim as stated.  The input is a masked
Standard(2) symbol at mask-evaluation time: the first block of
conjuncts pins it to the domain (square, 33 wide, light quiet zone, and
cell for cell either an encoding-region cell of the Standard(2) canvas
holding a black or white data bit, or exactly the canvas cell, so the
reserved format marker cells are the real ones).  The penalty computed
by the code differs from 40 per light-window occurrence, and still
differs after allowing the constant 720 finder discount: the code
additionally counts the row-12 occurrence whose only dark-free window
is made of format marker cells, which are not light. -/
theorem n3_score_not_40_per_occurrence :
    ((create_standard_qt_canvas 2).isSome ∧
     v2_canvas.width = 33 ∧ v2_canvas.height = 33 ∧
     v2_masked_image.width = v2_masked_image.height ∧
     29 ≤ v2_masked_image.width ∧
     (∀ x, x < v2_masked_image.width → ∀ y, y < v2_masked_image.height →
       (x < 4 ∨ v2_masked_image.width ≤ x + 4 ∨ y < 4 ∨
         v2_masked_image.height ≤ y + 4) →
       getPix v2_masked_image x y = BIT_WHITE) ∧
     (∀ x, x < 33 → ∀ y, y < 33 →
       (getPix v2_canvas x y = MARKER_ENCODING_REGION ∧
         (getPix v2_masked_image x y = BIT_BLACK ∨
          getPix v2_masked_image x y = BIT_WHITE)) ∨
       getPix v2_masked_image x y = getPix v2_canvas x y)) ∧
    penalty_exact v2_masked_image ≠
      (n1_rows v2_masked_image : Int) + (n1_cols v2_masked_image : Int) +
        (n2_score v2_masked_image : Int) +
        40 * ((spec_n3_rows_light v2_masked_image : Int) +
          (spec_n3_cols_light v2_masked_image : Int)) +
        (n4_score v2_masked_image : Int) ∧
    penalty_exact v2_masked_image ≠
      (n1_rows v2_masked_image : Int) + (n1_cols v2_masked_image : Int) +
        (n2_score v2_masked_image : Int) +
        (40 * ((spec_n3_rows_light v2_masked_image : Int) +
          (spec_n3_cols_light v2_masked_image : Int)) - 720) +
        (n4_score v2_masked_image : Int) := by
  refine ⟨⟨by decide, by decide, by decide, rfl, by decide, by decide, by decide⟩,
    by decide, by decide⟩

/-- C5 amended: on every masked-symbol shaped image (square, at least
29 modules wide, light quiet zone four modules deep) the N3 feature
contributes 40 for each qualifying occurrence of the pattern
[D,L,D,D,D,L,D] in any row or column, where a window qualifies when
none of its four modules is dark - the source tests only non-darkness,
so reserved marker cells still present at mask-evaluation time count
(out-of-bounds positions treated as absent) - minus the constant
discount 2 * 9 * 40 = 720 for the nine finder-pattern occurrences
counted by each of the two scans. -/
theorem n3_adds_40_per_occurrence_with_finder_discount (img : GrayImage)
    (h29 : 29 ≤ img.width) (hsq : img.width = img.height)
    (hq : ∀ x, x < img.width → ∀ y, y < img.height →
      (x < 4 ∨ img.width ≤ x + 4 ∨ y < 4 ∨ img.height ≤ y + 4) →
      getPix img x y = BIT_WHITE) :
    penalty_exact img =
      (n1_rows img : Int) + (n1_cols img : Int) + (n2_score img : Int) +
        (40 * ((amended_n3_rows img : Int) + (amended_n3_cols img : Int)) - 720) +
        (n4_score img : Int) := by
  unfold penalty_exact
  rw [← n3_rows_count_eq_spec img h29 hsq hq, ← n3_cols_count_eq_spec img h29 hsq hq]
  ring

/-- Witness for the amended C5 on the masked Standard(2) symbol of the
counterexample: with non-dark windows and the 720 discount the formula
matches the penalty computed by the code exactly. -/
theorem n3_discount_witness :
    penalty_exact v2_masked_image =
      (n1_rows v2_masked_image : Int) + (n1_cols v2_masked_image : Int) +
        (n2_score v2_masked_image : Int) +
        (40 * ((amended_n3_rows v2_masked_image : Int) +
          (amended_n3_cols v2_masked_image : Int)) - 720) +
        (n4_score v2_masked_image : Int) :=
  n3_adds_40_per_occurrence_with_finder_discount v2_masked_image
    (by decide) rfl (by decide)


/-! ## C3: micro mask score -/

/-- C3: refuted (code bug).  compute_mask_score_micro samples the column
x = width - 2 and the row y = height - 2, which lie inside the
always-light 2-module quiet zone, so its score is 0; the claim (the
rightmost interior column x = width - 3 and the bottom interior row,
excluding two leading cells) gives 16 * 9 + 9 = 153 on a Micro(1) symbol
whose whole encoding region is dark. -/
theorem micro_mask_score_samples_quiet_zone :
    ((create_qr_canvas (Size.Micro 1)).map fun c =>
      (compute_mask_score_micro (darkenEncodingRegion c),
       micro_score_spec (darkenEncodingRegion c))) = some (0, 153) := by
  decide

/-! ## C4: best-mask selection -/

theorem mapM_eq_some_map {α : Type} (f : Nat → Option α) (g : Nat → α) :
    ∀ l : List Nat, (∀ i ∈ l, f i = some (g i)) → l.mapM f = some (l.map g) := by
  intro l
  induction l with
  | nil => intro _; rfl
  | cons a l ih =>
      intro h
      rw [List.mapM_cons, h a (by simp), ih fun i hi => h i (by simp [hi])]
      rfl

/-- Iterator::min_by_key over the mask candidates: the result is a
candidate, its key is minimal, and among equal keys it has the lowest
index (Rust min_by_key keeps the first of equally minimal elements). -/
theorem rust_min_by_key_range (m : Nat → GrayImage) (s : Nat → Nat) :
    ∀ n, 1 ≤ n →
    ∃ b, rust_min_by_key (fun d => d.2.2)
        ((List.range n).map fun i => (i, m i, s i)) = some b ∧
      b.1 < n ∧ b = (b.1, m b.1, s b.1) ∧
      (∀ j, j < n → s b.1 ≤ s j) ∧ (∀ j, j < n → s j = s b.1 → b.1 ≤ j) := by
  intro n
  induction n with
  | zero => omega
  | succ n ih =>
      intro _
      by_cases hn : 1 ≤ n
      · obtain ⟨b, hb, hblt, hbshape, hbmin, hbfirst⟩ := ih hn
        obtain ⟨bi, bm, bs⟩ := b
        simp only [Prod.mk.injEq] at hbshape
        obtain ⟨-, hbm, hbs⟩ := hbshape
        subst hbm; subst hbs
        simp only at hblt hbmin hbfirst
        have hne : (List.range n).map (fun i => (i, m i, s i)) ≠ [] := by
          intro hemp
          have := congrArg List.length hemp
          simp at this
          omega
        obtain ⟨hd, tl, hl⟩ := List.exists_cons_of_ne_nil hne
        have hb2 : tl.foldl
            (fun best c => if c.2.2 < best.2.2 then c else best) hd =
            (bi, m bi, s bi) := by
          have heq := hb
          rw [hl] at heq
          simp only [rust_min_by_key] at heq
          exact Option.some.inj heq
        have hstep : rust_min_by_key (fun d => d.2.2)
            ((List.range (n + 1)).map fun i => (i, m i, s i)) =
            some (if s n < s bi then (n, m n, s n) else (bi, m bi, s bi)) := by
          rw [List.range_succ, List.map_append, hl,
            List.map_cons, List.map_nil, List.cons_append]
          simp only [rust_min_by_key]
          rw [List.foldl_concat, hb2]
        by_cases hcase : s n < s bi
        · rw [if_pos hcase] at hstep
          refine ⟨(n, m n, s n), hstep, by omega, rfl, ?_, ?_⟩
          · intro j hj
            by_cases hjn : j < n
            · have := hbmin j hjn; simp only; omega
            · simp only
              have : j = n := by omega
              subst this; exact le_refl _
          · intro j hj hts
            simp only at hts
            by_cases hjn : j < n
            · exfalso; have := hbmin j hjn; omega
            · omega
        · rw [if_neg hcase] at hstep
          refine ⟨(bi, m bi, s bi), hstep, by omega, rfl, ?_, ?_⟩
          · intro j hj
            simp only
            by_cases hjn : j < n
            · exact hbmin j hjn
            · have : j = n := by omega
              subst this; omega
          · intro j hj hts
            simp only at hts
            by_cases hjn : j < n
            · exact hbfirst j hjn hts
            · omega
      · have hn0 : n = 0 := by omega
        subst hn0
        refine ⟨(0, m 0, s 0), rfl, by omega, rfl, ?_, ?_⟩
        · intro j hj
          have : j = 0 := by omega
          subst this; exact le_refl _
        · intro j hj _
          omega

/-- Iterator::max_by_key over the mask candidates: the result is a
candidate with maximal key. -/
theorem rust_max_by_key_range (m : Nat → GrayImage) (s : Nat → Nat) :
    ∀ n, 1 ≤ n →
    ∃ b, rust_max_by_key (fun d => d.2.2)
        ((List.range n).map fun i => (i, m i, s i)) = some b ∧
      b.1 < n ∧ b = (b.1, m b.1, s b.1) ∧ (∀ j, j < n → s j ≤ s b.1) := by
  intro n
  induction n with
  | zero => omega
  | succ n ih =>
      intro _
      by_cases hn : 1 ≤ n
      · obtain ⟨b, hb, hblt, hbshape, hbmax⟩ := ih hn
        obtain ⟨bi, bm, bs⟩ := b
        simp only [Prod.mk.injEq] at hbshape
        obtain ⟨-, hbm, hbs⟩ := hbshape
        subst hbm; subst hbs
        simp only at hblt hbmax
        have hne : (List.range n).map (fun i => (i, m i, s i)) ≠ [] := by
          intro hemp
          have := congrArg List.length hemp
          simp at this
          omega
        obtain ⟨hd, tl, hl⟩ := List.exists_cons_of_ne_nil hne
        have hb2 : tl.foldl
            (fun best c => if best.2.2 ≤ c.2.2 then c else best) hd =
            (bi, m bi, s bi) := by
          have heq := hb
          rw [hl] at heq
          simp only [rust_max_by_key] at heq
          exact Option.some.inj heq
        have hstep : rust_max_by_key (fun d => d.2.2)
            ((List.range (n + 1)).map fun i => (i, m i, s i)) =
            some (if s bi ≤ s n then (n, m n, s n) else (bi, m bi, s bi)) := by
          rw [List.range_succ, List.map_append, hl,
            List.map_cons, List.map_nil, List.cons_append]
          simp only [rust_max_by_key]
          rw [List.foldl_concat, hb2]
        by_cases hcase : s bi ≤ s n
        · rw [if_pos hcase] at hstep
          refine ⟨(n, m n, s n), hstep, by omega, rfl, ?_⟩
          intro j hj
          simp only
          by_cases hjn : j < n
          · have := hbmax j hjn; omega
          · have : j = n := by omega
            subst this; exact le_refl _
        · rw [if_neg hcase] at hstep
          refine ⟨(bi, m bi, s bi), hstep, by omega, rfl, ?_⟩
          intro j hj
          simp only
          by_cases hjn : j < n
          · exact hbmax j hjn
          · have : j = n := by omega
            subst this; omega
      · have hn0 : n = 0 := by omega
        subst hn0
        refine ⟨(0, m 0, s 0), rfl, by omega, rfl, ?_⟩
        intro j hj
        have : j = 0 := by omega
        subst this; exact le_refl _


/-- C4: confirmed.  apply_best_mask evaluates every mask candidate on a
masked working copy (four for Micro, eight for Standard), returns the
winning index together with the masked canvas, picks a maximal micro
score or a minimal standard penalty, and resolves standard penalty ties
by the lowest mask index. -/
theorem apply_best_mask_selects_optimum (unmasked : GrayImage) (k v : Nat)
    (hk1 : 1 ≤ k) (hk4 : k ≤ 4) (hv1 : 1 ≤ v) (hv40 : v ≤ 40) :
    (∃ canvas i msk, create_qr_canvas (Size.Micro k) = some canvas ∧
      apply_best_mask unmasked (Size.Micro k) = some (i, msk) ∧ i < 4 ∧
      apply_mask unmasked i (Size.Micro k) canvas = some msk ∧
      ∀ j m2, j < 4 → apply_mask unmasked j (Size.Micro k) canvas = some m2 →
        compute_mask_score_micro m2 ≤ compute_mask_score_micro msk) ∧
    (∃ canvas i msk, create_qr_canvas (Size.Standard v) = some canvas ∧
      apply_best_mask unmasked (Size.Standard v) = some (i, msk) ∧ i < 8 ∧
      apply_mask unmasked i (Size.Standard v) canvas = some msk ∧
      ∀ j m2, j < 8 → apply_mask unmasked j (Size.Standard v) canvas = some m2 →
        compute_mask_penalty_score_standard msk ≤
          compute_mask_penalty_score_standard m2 ∧
        (compute_mask_penalty_score_standard m2 =
          compute_mask_penalty_score_standard msk → i ≤ j)) := by
  constructor
  · -- Micro
    obtain ⟨canvas, hcv⟩ : ∃ canvas, create_qr_canvas (Size.Micro k) = some canvas := by
      simp only [create_qr_canvas, create_micro_qr_canvas]
      rw [if_pos ⟨hk1, hk4⟩]
      exact ⟨_, rfl⟩
    have happ : ∀ i, i < 4 → apply_mask unmasked i (Size.Micro k) canvas =
        some ((apply_mask unmasked i (Size.Micro k) canvas).getD unmasked) := by
      intro i hi
      interval_cases i <;> rfl
    obtain ⟨b, hbmax, hblt, hbshape, hbmax2⟩ :=
      rust_max_by_key_range
        (fun i => (apply_mask unmasked i (Size.Micro k) canvas).getD unmasked)
        (fun i => compute_mask_score_micro
          ((apply_mask unmasked i (Size.Micro k) canvas).getD unmasked)) 4 (by omega)
    have hmapM : (List.range 4).mapM (fun index => do
        let masked ← apply_mask unmasked index (Size.Micro k) canvas
        pure (index, masked, compute_mask_score_micro masked)) =
        some ((List.range 4).map fun i =>
          (i, (apply_mask unmasked i (Size.Micro k) canvas).getD unmasked,
            compute_mask_score_micro
              ((apply_mask unmasked i (Size.Micro k) canvas).getD unmasked))) := by
      apply mapM_eq_some_map
      intro i hi
      rw [happ i (List.mem_range.mp hi)]
      rfl
    refine ⟨canvas, b.1,
      (apply_mask unmasked b.1 (Size.Micro k) canvas).getD unmasked,
      hcv, ?_, hblt, happ b.1 hblt, ?_⟩
    · unfold apply_best_mask
      rw [hcv]
      simp only [Option.bind_eq_bind, Option.some_bind]
      simp only [Option.bind_eq_bind] at hmapM
      rw [hmapM]
      simp only [Option.bind_eq_bind, Option.some_bind]
      rw [hbmax]
      simp only [Option.bind_eq_bind, Option.some_bind, Option.pure_def]
      rw [hbshape]
    · intro j m2 hj hm2
      rw [happ j hj] at hm2
      injection hm2 with hm2
      subst hm2
      exact hbmax2 j hj
  · -- Standard
    obtain ⟨canvas, hcv⟩ : ∃ canvas,
        create_qr_canvas (Size.Standard v) = some canvas := by
      simp only [create_qr_canvas, create_standard_qt_canvas]
      rw [if_pos ⟨hv1, hv40⟩]
      exact ⟨_, rfl⟩
    have happ : ∀ i, i < 8 → apply_mask unmasked i (Size.Standard v) canvas =
        some ((apply_mask unmasked i (Size.Standard v) canvas).getD unmasked) := by
      intro i hi
      interval_cases i <;> rfl
    obtain ⟨b, hbmin, hblt, hbshape, hbmin2, hbfirst⟩ :=
      rust_min_by_key_range
        (fun i => (apply_mask unmasked i (Size.Standard v) canvas).getD unmasked)
        (fun i => compute_mask_penalty_score_standard
          ((apply_mask unmasked i (Size.Standard v) canvas).getD unmasked)) 8 (by omega)
    have hmapM : (List.range 8).mapM (fun index => do
        let masked ← apply_mask unmasked index (Size.Standard v) canvas
        pure (index, masked, compute_mask_penalty_score_standard masked)) =
        some ((List.range 8).map fun i =>
          (i, (apply_mask unmasked i (Size.Standard v) canvas).getD unmasked,
            compute_mask_penalty_score_standard
              ((apply_mask unmasked i (Size.Standard v) canvas).getD unmasked))) := by
      apply mapM_eq_some_map
      intro i hi
      rw [happ i (List.mem_range.mp hi)]
      rfl
    refine ⟨canvas, b.1,
      (apply_mask unmasked b.1 (Size.Standard v) canvas).getD unmasked,
      hcv, ?_, hblt, happ b.1 hblt, ?_⟩
    · unfold apply_best_mask
      rw [hcv]
      simp only [Option.bind_eq_bind, Option.some_bind]
      simp only [Option.bind_eq_bind] at hmapM
      rw [hmapM]
      simp only [Option.bind_eq_bind, Option.some_bind]
      rw [hbmin]
      simp only [Option.bind_eq_bind, Option.some_bind, Option.pure_def]
      rw [hbshape]
    · intro j m2 hj hm2
      rw [happ j hj] at hm2
      injection hm2 with hm2
      subst hm2
      exact ⟨hbmin2 j hj, hbfirst j hj⟩


/-- Witness for C4 on an all-light image with sizes Micro(1) and
Standard(1). -/
theorem apply_best_mask_selects_optimum_witness :
    (∃ canvas i msk, create_qr_canvas (Size.Micro 1) = some canvas ∧
      apply_best_mask (from_pixel 15 BIT_WHITE) (Size.Micro 1) = some (i, msk) ∧
      i < 4 ∧
      apply_mask (from_pixel 15 BIT_WHITE) i (Size.Micro 1) canvas = some msk ∧
      ∀ j m2, j < 4 →
        apply_mask (from_pixel 15 BIT_WHITE) j (Size.Micro 1) canvas = some m2 →
        compute_mask_score_micro m2 ≤ compute_mask_score_micro msk) ∧
    (∃ canvas i msk, create_qr_canvas (Size.Standard 1) = some canvas ∧
      apply_best_mask (from_pixel 15 BIT_WHITE) (Size.Standard 1) = some (i, msk) ∧
      i < 8 ∧
      apply_mask (from_pixel 15 BIT_WHITE) i (Size.Standard 1) canvas = some msk ∧
      ∀ j m2, j < 8 →
        apply_mask (from_pixel 15 BIT_WHITE) j (Size.Standard 1) canvas = some m2 →
        compute_mask_penalty_score_standard msk ≤
          compute_mask_penalty_score_standard m2 ∧
        (compute_mask_penalty_score_standard m2 =
          compute_mask_penalty_score_standard msk → i ≤ j)) :=
  apply_best_mask_selects_optimum (from_pixel 15 BIT_WHITE) 1 1
    (by decide) (by decide) (by decide) (by decide)

end QrGen
